import Mathlib

/-!
Verification development for the YMeRo per-step orchestration engine.

Shallow embedding of the driver-level components of the simulator:
the `TextIO` restart-record helpers, the simulation clock and the
`Simulation::run` stepping loop, cell-list id computation
(`CellListInfo::getCellId`), cell-list preparation and selection
(`Simulation::prepareCellLists`, `selectBestClist`), registration checks,
the single-node exchange engine, checkpoint task creation, and the
pairwise self-interaction kernel (`computeSelfInteractions`).

Machine floating-point values are modelled as rationals (ℚ), C++ `int`
as ℤ, and container indices as ℕ.  Fallible operations return `Except`
or report flags explicitly.
-/

/-- Rational 3-vector standing for the C++ `float3`. -/
structure Q3 where
  x : ℚ
  y : ℚ
  z : ℚ
deriving DecidableEq, Repr

/-- Integer 3-vector standing for the C++ `int3`. -/
structure Int3 where
  x : ℤ
  y : ℤ
  z : ℤ
deriving DecidableEq, Repr

/-! ## TextIO (core/utils/restart_helpers.h)

A text input stream is modelled as the list of its whitespace-separated
tokens together with the stream's fail state.  A token is `some v` when
it parses as a number with value `v`, and `none` when it is unparseable
text.  A missing file is `(none : Option (List (Option ℚ)))`; an existing
file is `some` of its token list. -/

/-- C++ `std::ifstream` state: remaining tokens plus the fail flag. -/
structure IStream where
  toks : List (Option ℚ)
  failed : Bool
deriving DecidableEq, Repr

/-- One formatted extraction `fin >> arg` into a floating-point variable.
Returns the new stream, the new value of the variable, and the result of
`.fail()` right after the extraction.  On a stream already in a failed
state the extraction is a no-op; on end-of-file or an unparseable token
the value is set to `0` and the failbit is set (C++11 semantics). -/
def IStream.extractFloat : IStream → ℚ → IStream × ℚ × Bool
  | ⟨toks, true⟩, cur => (⟨toks, true⟩, cur, true)
  | ⟨[], false⟩, _cur => (⟨[], true⟩, 0, true)
  | ⟨none :: rest, false⟩, _cur => (⟨rest, true⟩, 0, true)
  | ⟨some v :: rest, false⟩, _cur => (⟨rest, false⟩, v, false)

/-- One formatted extraction `fin >> arg` into an `int` variable.  A
numeric token is truncated towards zero as C++ does when the fractional
part is not part of an integer literal. -/
def IStream.extractInt : IStream → ℤ → IStream × ℤ × Bool
  | ⟨toks, true⟩, cur => (⟨toks, true⟩, cur, true)
  | ⟨[], false⟩, _cur => (⟨[], true⟩, 0, true)
  | ⟨none :: rest, false⟩, _cur => (⟨rest, true⟩, 0, true)
  | ⟨some v :: rest, false⟩, _cur => (⟨rest, false⟩, v.num / (v.den : ℤ), false)

/-- `TextIO::readFromStream(fin, arg1, arg2)` for a float followed by an
int, exactly as the variadic template unfolds:
`return (fin >> arg1).fail() && readFromStream(fin, arg2);`.
The C++ `&&` short-circuits: when the first extraction SUCCEEDS
(`.fail()` is false) the second argument is never read. -/
def TextIO.readFromStream2 (s : IStream) (a : ℚ) (b : ℤ) : IStream × ℚ × ℤ × Bool :=
  let r1 := s.extractFloat a
  if r1.2.2 then
    let r2 := r1.1.extractInt b
    (r2.1, r1.2.1, r2.2.1, r1.2.2 && r2.2.2)
  else
    (r1.1, r1.2.1, b, false)

/-- `TextIO::read(fname, arg1, arg2)`:
`std::ifstream fin(fname); return fin.good() && readFromStream(fin, args...);`.
A missing file makes `fin.good()` false, so `&&` short-circuits and no
argument is touched.  Returns the final values and the boolean result. -/
def TextIO.read2 (file : Option (List (Option ℚ))) (a : ℚ) (b : ℤ) : ℚ × ℤ × Bool :=
  match file with
  | none => (a, b, false)
  | some toks =>
      let r := TextIO.readFromStream2 ⟨toks, false⟩ a b
      (r.2.1, r.2.2.1, r.2.2.2)

/-- `TextIO::write(fname, currentTime, currentStep)`: the two values,
each on its own line, as the token list of the produced file. -/
def TextIO.write2 (a : ℚ) (b : ℤ) : List (Option ℚ) :=
  [some a, some (b : ℚ)]

/-! ## Simulation clock (SimulationState + Simulation::run /
Simulation::checkpoint / Simulation::restart, driver source part_009) -/

/-- The driver clock: `currentTime`, `currentStep` and the timestep `dt`. -/
structure SimClock where
  currentTime : ℚ
  currentStep : ℤ
  dt : ℚ
deriving DecidableEq, Repr

/-- `Simulation::checkpoint` (rank 0): writes the record
`_simulation.state` holding `state->currentTime` then `state->currentStep`.
Per-component files are outside the clock model. -/
def Simulation.checkpointRecord (s : SimClock) : List (Option ℚ) :=
  TextIO.write2 s.currentTime s.currentStep

/-- `Simulation::restart(folder)`: executes
`TextIO::read(folder + "_simulation.state", state->currentTime, state->currentStep);`
discarding the returned boolean, then proceeds with per-component
restarts (outside the clock model).  There is no error path: the
function returns the resulting clock unconditionally. -/
def Simulation.restart (s : SimClock) (file : Option (List (Option ℚ))) : SimClock :=
  let r := TextIO.read2 file s.currentTime s.currentStep
  { s with currentTime := r.1, currentStep := r.2.1 }

/-- The body of `Simulation::run`'s stepping loop, iterated `nsteps`
times: each iteration invokes `scheduler->run()` (counted in the second
component), then advances `currentTime += dt`; the loop header advances
`currentStep`.  Returns the final clock and the number of
`scheduler->run()` invocations. -/
def Simulation.run : ℕ → SimClock → SimClock × ℕ
  | 0, s => (s, 0)
  | n + 1, s =>
      let s1 : SimClock :=
        { s with currentTime := s.currentTime + s.dt, currentStep := s.currentStep + 1 }
      let r := Simulation.run n s1
      (r.1, r.2 + 1)

/-! ## Theorems for C1, C2, C4 -/

theorem Simulation.restart_checkpointRecord (pre w : SimClock) :
    Simulation.restart pre (some (Simulation.checkpointRecord w)) =
      { pre with currentTime := w.currentTime } := by
  rfl

/-- C1: FALSIFIED BY THE CODE.  `TextIO::readFromStream` combines the
per-argument reads with `&&`; since C++ `&&` short-circuits, a
SUCCESSFUL read of `currentTime` (`.fail()` false) skips the read of
`currentStep` entirely.  Hence checkpoint followed by an immediate
restart restores `currentTime` but leaves `currentStep` at its
pre-restart value: for every starting clock `pre` and every checkpointed
clock `w`, the restored step is `pre.currentStep`, not `w.currentStep`. -/
theorem restart_after_checkpoint_keeps_old_step (pre w : SimClock) :
    (Simulation.restart pre (some (Simulation.checkpointRecord w))).currentTime
        = w.currentTime ∧
      (Simulation.restart pre (some (Simulation.checkpointRecord w))).currentStep
        = pre.currentStep := by
  constructor <;> rfl

/-- C1 evaluation at a concrete failing input: the record written for
time 1/2, step 42 is read back into a clock at time 0, step 0; the
restored clock has step 0, not 42. -/
theorem restart_after_checkpoint_failing_input :
    Simulation.restart ⟨0, 0, 1⟩ (some (Simulation.checkpointRecord ⟨1/2, 42, 1⟩))
      = ⟨1/2, 0, 1⟩ := by
  rfl

/-- C2: FALSIFIED BY THE CODE.  `Simulation::restart` discards the
boolean returned by `TextIO::read`.  When the restart record
`_simulation.state` is missing, `fin.good()` is false, no argument is
touched, and `restart` continues normally with the pre-restart clock
values — nothing detects the failure and nothing terminates the run. -/
theorem restart_missing_record_silently_continues (s : SimClock) :
    Simulation.restart s none = s := by
  rfl

/-- C2, malformed-record evaluation: on a record whose first token does
not parse, `restart` sets `currentTime := 0` (C++11 failed extraction),
leaves `currentStep`, and again continues normally. -/
theorem restart_malformed_record_silently_continues (s : SimClock) :
    Simulation.restart s (some [none]) = { s with currentTime := 0 } := by
  rfl

/-- C4: CONFIRMED.  `Simulation::run(nsteps)` starting at step `begin`
and time `t0` invokes `scheduler->run()` exactly `nsteps` times and
leaves `currentStep = begin + nsteps`, `currentTime = t0 + nsteps·dt`. -/
theorem Simulation.run_clock (n : ℕ) (s : SimClock) :
    (Simulation.run n s).1.currentStep = s.currentStep + n ∧
      (Simulation.run n s).1.currentTime = s.currentTime + n * s.dt ∧
      (Simulation.run n s).1.dt = s.dt ∧
      (Simulation.run n s).2 = n := by
  induction n generalizing s with
  | zero => simp [Simulation.run]
  | succ m ih =>
      have h := ih { s with currentTime := s.currentTime + s.dt,
                            currentStep := s.currentStep + 1 }
      refine ⟨?_, ?_, ?_, ?_⟩
      · show (Simulation.run m _).1.currentStep = _
        rw [h.1]; push_cast; ring
      · show (Simulation.run m _).1.currentTime = _
        rw [h.2.1]; push_cast; ring
      · exact h.2.2.1
      · show (Simulation.run m _).2 + 1 = _
        rw [h.2.2.2]


/-! ## Checkpoint task creation (Simulation::createTasks, part_009)

Only the checkpoint-related head of `createTasks` is modelled: the
global checkpoint task guarded by `globalCheckpointEvery > 0`, and the
per-particle-vector tasks guarded by
`prototype.checkpointEvery > 0 && globalCheckpointEvery == 0`. -/

/-- A checkpoint task registered with the scheduler. -/
inductive CheckpointTask where
  | global (every : ℤ)
  | perPV (name : String) (every : ℤ)
deriving DecidableEq, Repr

/-- The checkpoint tasks `Simulation::createTasks` adds, given the
global cadence and the `pvsCheckPointPrototype` list of
(pv name, checkpointEvery) pairs. -/
def Simulation.createTasksCheckpoints (globalCheckpointEvery : ℤ)
    (protos : List (String × ℤ)) : List CheckpointTask :=
  (if globalCheckpointEvery > 0 then [CheckpointTask.global globalCheckpointEvery] else [])
    ++ protos.filterMap (fun p =>
        if p.2 > 0 ∧ globalCheckpointEvery = 0 then some (CheckpointTask.perPV p.1 p.2)
        else none)

/-- C10: CONFIRMED.  With a global checkpoint cadence configured the
per-PV `checkpointEvery` values are ignored: a per-PV checkpoint task
appears in the scheduler exactly when `globalCheckpointEvery = 0` and
that PV's `checkpointEvery > 0`; and the global task appears exactly
when `globalCheckpointEvery > 0`. -/
theorem createTasksCheckpoints_perPV_iff (ge : ℤ) (protos : List (String × ℤ))
    (name : String) (ev : ℤ) (hmem : (name, ev) ∈ protos) :
    (CheckpointTask.perPV name ev ∈ Simulation.createTasksCheckpoints ge protos
        ↔ ge = 0 ∧ ev > 0) ∧
      (CheckpointTask.global ge ∈ Simulation.createTasksCheckpoints ge protos ↔ ge > 0) := by
  constructor
  · constructor
    · intro h
      rcases List.mem_append.1 h with h1 | h1
      · split at h1 <;> simp_all
      · rcases List.mem_filterMap.1 h1 with ⟨p, _, hp⟩
        split at hp <;> simp_all [And.comm]
    · rintro ⟨hge, hev⟩
      refine List.mem_append.2 (Or.inr (List.mem_filterMap.2 ⟨(name, ev), hmem, ?_⟩))
      simp [hev, hge]
  · constructor
    · intro h
      rcases List.mem_append.1 h with h1 | h1
      · split at h1 <;> simp_all
      · rcases List.mem_filterMap.1 h1 with ⟨p, _, hp⟩
        split at hp <;> simp_all
    · intro hge
      exact List.mem_append.2 (Or.inl (by simp [hge]))

/-- Witness for C10 at a concrete input: with `globalCheckpointEvery = 5`
the per-PV task for ("pv", 3) is not created although its own cadence is
positive, and the global task is. -/
theorem createTasksCheckpoints_perPV_iff_witness :
    CheckpointTask.perPV "pv" 3 ∉ Simulation.createTasksCheckpoints 5 [("pv", 3)] ∧
      CheckpointTask.global 5 ∈ Simulation.createTasksCheckpoints 5 [("pv", 3)] := by
  have h := createTasksCheckpoints_perPV_iff 5 [("pv", 3)] "pv" 3 (by simp)
  exact ⟨fun hc => by simpa using (h.1.1 hc).1, h.2.2 (by norm_num)⟩

/-! ## Single-node exchange engine (SingleNodeEngine, part_010)

An `ExchangeHelper` holds the 27-slot send/recv size and offset tables
and the send/recv buffers (modelled as opaque payload lists).  Slot 26
is the bulk (self) fragment. -/

/-- `FragmentMapping::bulkId`. -/
def FragmentMapping.bulkId : ℕ := 26

/-- State of one `ExchangeHelper`. -/
structure ExchangeHelper where
  name : String
  sendSizes : List ℕ
  sendOffsets : List ℕ
  recvSizes : List ℕ
  recvOffsets : List ℕ
  sendBuf : List ℕ
  recvBuf : List ℕ
deriving DecidableEq, Repr

/-- `SingleNodeEngine::copySend2Recv`: logs an error message when the
bulk send size is non-zero (second component `true`), copies
`sendSizes` into `recvSizes` and `sendOffsets` into `recvOffsets`, and
swaps the send and recv buffers.  No network operation occurs. -/
def SingleNodeEngine.copySend2Recv (h : ExchangeHelper) : ExchangeHelper × Bool :=
  ({ h with
      recvSizes := h.sendSizes
      recvOffsets := h.sendOffsets
      sendBuf := h.recvBuf
      recvBuf := h.sendBuf },
    h.sendSizes.getD FragmentMapping.bulkId 0 != 0)

/-- The per-helper action of `SingleNodeEngine::finalize`: helpers whose
exchanger reports `needExchange` get `copySend2Recv`; the others are
left untouched (and never warn). -/
def SingleNodeEngine.finalizeHelper (needExchange : Bool) (h : ExchangeHelper) :
    ExchangeHelper × Bool :=
  if needExchange then SingleNodeEngine.copySend2Recv h else (h, false)

/-- `SingleNodeEngine::finalize` over the exchanger's helper list, each
paired with its `needExchange` flag; returns each helper's new state and
whether the non-empty-bulk warning was emitted for it. -/
def SingleNodeEngine.finalize (hs : List (Bool × ExchangeHelper)) :
    List (ExchangeHelper × Bool) :=
  hs.map (fun p => SingleNodeEngine.finalizeHelper p.1 p.2)

/-- C8: CONFIRMED.  For every helper processed by
`SingleNodeEngine::finalize`: if its exchanger reports `needExchange`,
the recv size/offset tables become copies of the send tables, the send
and recv buffers are swapped, and the warning fires exactly when the
bulk (slot 26) send size is non-zero; a helper not needing exchange is
returned untouched with no warning.  The transformation is a pure state
update — no communication primitive appears. -/
theorem SingleNodeEngine.finalizeHelper_spec (need : Bool) (h : ExchangeHelper) :
    (need = true →
      SingleNodeEngine.finalizeHelper need h =
        ({ h with
            recvSizes := h.sendSizes
            recvOffsets := h.sendOffsets
            sendBuf := h.recvBuf
            recvBuf := h.sendBuf },
          h.sendSizes.getD FragmentMapping.bulkId 0 != 0)) ∧
      (need = false → SingleNodeEngine.finalizeHelper need h = (h, false)) := by
  constructor <;> intro hn <;> subst hn <;>
    simp [SingleNodeEngine.finalizeHelper, SingleNodeEngine.copySend2Recv]

/-- Witness for C8 at a concrete helper: with `needExchange` set and a
non-zero bulk send size the tables are copied, buffers swapped, and the
warning fires. -/
theorem SingleNodeEngine.finalizeHelper_spec_witness :
    SingleNodeEngine.finalizeHelper true
        ⟨"pv", List.replicate 26 0 ++ [4], [1], [9], [9], [7], [8]⟩ =
      (⟨"pv", List.replicate 26 0 ++ [4], [1], List.replicate 26 0 ++ [4], [1], [8], [7]⟩,
        true) := by
  have h := (SingleNodeEngine.finalizeHelper_spec true
      ⟨"pv", List.replicate 26 0 ++ [4], [1], [9], [9], [7], [8]⟩).1 rfl
  rw [h]
  simp [FragmentMapping.bulkId, List.getD_append_right, List.replicate]

/-! ## Registration (Simulation::register*, part_009)

Each registry is modelled by the list of names already registered for
that component kind.  `die` is modelled as `Except.error` with the
message. -/

/-- `name.rfind("_", 0) == 0`: the name starts with an underscore. -/
def startsWithUnderscore (name : String) : Bool :=
  name.data.head? = some '_'

/-- `Simulation::registerParticleVector`: rejects the reserved words
`none`, `all` and the empty string, then names starting with `_`, then
duplicates in `pvIdMap`; otherwise appends the name. -/
def Simulation.registerParticleVector (pvIdMap : List String) (name : String) :
    Except String (List String) :=
  if name = "none" ∨ name = "all" ∨ name = "" then
    Except.error "Invalid name for a particle vector (reserved word or empty)"
  else if startsWithUnderscore name then
    Except.error "Identifier of Particle Vectors cannot start with _"
  else if name ∈ pvIdMap then
    Except.error "More than one particle vector has this name"
  else
    Except.ok (pvIdMap ++ [name])

/-- `Simulation::registerWall`: rejects duplicates in `wallMap` only. -/
def Simulation.registerWall (wallMap : List String) (name : String) :
    Except String (List String) :=
  if name ∈ wallMap then Except.error "More than one wall has this name"
  else Except.ok (wallMap ++ [name])

/-- `Simulation::registerInteraction`: rejects duplicates in
`interactionMap` only. -/
def Simulation.registerInteraction (interactionMap : List String) (name : String) :
    Except String (List String) :=
  if name ∈ interactionMap then Except.error "More than one interaction has this name"
  else Except.ok (interactionMap ++ [name])

/-- C9 counterexample: CLAIM FALSE AS STATED.  `registerWall` accepts
the reserved word `none` (the reserved-name and underscore checks exist
only in `registerParticleVector`): registering a wall called "none"
into an empty registry succeeds. -/
theorem registerWall_accepts_reserved_name :
    Simulation.registerWall [] "none" = Except.ok ["none"] ∧
      Simulation.registerInteraction [] "_x" = Except.ok ["_x"] := by
  constructor <;> rfl

/-- C9 amended: CONFIRMED.  Every modelled registration rejects a name
duplicating an already-registered component of the same kind, but only
`registerParticleVector` additionally rejects names starting with an
underscore or equal to the reserved words `none`, `all`, or the empty
string; `registerWall` and `registerInteraction` accept any
non-duplicate name. -/
theorem registration_name_checks (m : List String) (n : String) :
    (n ∈ m → ∃ e, Simulation.registerParticleVector m n = Except.error e) ∧
      (n ∈ m → Simulation.registerWall m n = Except.error "More than one wall has this name") ∧
      (n ∈ m →
        Simulation.registerInteraction m n
          = Except.error "More than one interaction has this name") ∧
      ((n = "none" ∨ n = "all" ∨ n = "" ∨ startsWithUnderscore n) →
        ∃ e, Simulation.registerParticleVector m n = Except.error e) ∧
      (n ∉ m → Simulation.registerWall m n = Except.ok (m ++ [n])) ∧
      (n ∉ m → Simulation.registerInteraction m n = Except.ok (m ++ [n])) ∧
      ((n ∉ m ∧ ¬(n = "none" ∨ n = "all" ∨ n = "") ∧ ¬startsWithUnderscore n) →
        Simulation.registerParticleVector m n = Except.ok (m ++ [n])) := by
  refine ⟨?_, ?_, ?_, ?_, ?_, ?_, ?_⟩
  · intro hmem
    unfold Simulation.registerParticleVector
    split
    · exact ⟨_, rfl⟩
    · split
      · exact ⟨_, rfl⟩
      · exact ⟨_, rfl⟩
  · intro hmem; simp [Simulation.registerWall, hmem]
  · intro hmem; simp [Simulation.registerInteraction, hmem]
  · intro hres
    unfold Simulation.registerParticleVector
    rcases hres with h | h | h | h
    · rw [if_pos (Or.inl h)]; exact ⟨_, rfl⟩
    · rw [if_pos (Or.inr (Or.inl h))]; exact ⟨_, rfl⟩
    · rw [if_pos (Or.inr (Or.inr h))]; exact ⟨_, rfl⟩
    · split
      · exact ⟨_, rfl⟩
      · exact ⟨_, rfl⟩
  · intro hmem; simp [Simulation.registerWall, hmem]
  · intro hmem; simp [Simulation.registerInteraction, hmem]
  · rintro ⟨h1, h2, h3⟩
    unfold Simulation.registerParticleVector
    rw [if_neg h2, if_neg h3, if_neg h1]

/-- Witness for C9's amended statement at concrete inputs: a duplicate
wall name is rejected while a fresh particle-vector name passes all
checks. -/
theorem registration_name_checks_witness :
    Simulation.registerWall ["w"] "w" = Except.error "More than one wall has this name" ∧
      Simulation.registerParticleVector [] "pv" = Except.ok ["pv"] := by
  constructor
  · exact (registration_name_checks ["w"] "w").2.1 (by simp)
  · exact (registration_name_checks [] "pv").2.2.2.2.2.2
      ⟨by simp, by simp, by decide⟩

/-! ## Cell-list id computation (CellListInfo, core/datatypes.h)

`CellListInfo` data fields; the member functions `encode`,
`getCellIdAlongAxes` and `getCellId`. -/

/-- Projection mode for cell-id computation. -/
inductive CellListsProjection where
  | Clamp
  | NoClamp
deriving DecidableEq, Repr

/-- The plain-data fields of `CellListInfo`. -/
structure CellListInfo where
  ncells : Int3
  totcells : ℤ
  localDomainSize : Q3
  h : Q3
  invh : Q3
  rc : ℚ
deriving DecidableEq, Repr

/-- `CellListInfo::encode(ix, iy, iz) = (iz*ncells.y + iy)*ncells.x + ix`. -/
def CellListInfo.encode (info : CellListInfo) (ix iy iz : ℤ) : ℤ :=
  (iz * info.ncells.y + iy) * info.ncells.x + ix

/-- `CellListInfo::encode(int3)`. -/
def CellListInfo.encode3 (info : CellListInfo) (c : Int3) : ℤ :=
  info.encode c.x c.y c.z

/-- `CellListInfo::getCellIdAlongAxes<Projection>(x)`:
`v = floor(invh * (x + 0.5*localDomainSize))` componentwise, clamped
into `[0, ncells-1]` in `Clamp` mode and returned raw in `NoClamp`
mode. -/
def CellListInfo.getCellIdAlongAxes (proj : CellListsProjection) (info : CellListInfo)
    (x : Q3) : Int3 :=
  let v : Int3 :=
    ⟨⌊info.invh.x * (x.x + info.localDomainSize.x / 2)⌋,
     ⌊info.invh.y * (x.y + info.localDomainSize.y / 2)⌋,
     ⌊info.invh.z * (x.z + info.localDomainSize.z / 2)⌋⟩
  match proj with
  | CellListsProjection.Clamp =>
      ⟨min (info.ncells.x - 1) (max 0 v.x),
       min (info.ncells.y - 1) (max 0 v.y),
       min (info.ncells.z - 1) (max 0 v.z)⟩
  | CellListsProjection.NoClamp => v

/-- `CellListInfo::getCellId<Projection>(coo)`.  As in the source, the
inner call is `getCellIdAlongAxes<CellListsProjection::Clamp>` with the
projection HARD-CODED to `Clamp` (not the `Projection` template
parameter), after which the `NoClamp` out-of-range test is applied to
the already-clamped id. -/
def CellListInfo.getCellId (proj : CellListsProjection) (info : CellListInfo)
    (coo : Q3) : ℤ :=
  let id := CellListInfo.getCellIdAlongAxes CellListsProjection.Clamp info coo
  if proj = CellListsProjection.NoClamp
      ∧ (id.x < 0 ∨ id.x ≥ info.ncells.x ∨ id.y < 0 ∨ id.y ≥ info.ncells.y
          ∨ id.z < 0 ∨ id.z ≥ info.ncells.z) then
    -1
  else
    info.encode id.x id.y id.z

/-- A concrete 4×4×4 grid of unit cells. -/
def infoFour : CellListInfo :=
  ⟨⟨4, 4, 4⟩, 64, ⟨4, 4, 4⟩, ⟨1, 1, 1⟩, ⟨1, 1, 1⟩, 1⟩

/-- C3: FALSIFIED BY THE CODE.  `getCellId` hard-codes `Clamp` in its
inner `getCellIdAlongAxes` call, so in `NoClamp` mode the out-of-range
test is applied to an already clamped id and never fires: on the 4×4×4
unit grid the coordinate (10,0,0) lies outside the grid (its unclamped
cell along x is 12 ≥ 4), yet `getCellId<NoClamp>` returns the clamped
in-range id 43 = encode(3,2,2) instead of -1. -/
theorem getCellId_noclamp_never_returns_minus_one :
    CellListInfo.getCellIdAlongAxes CellListsProjection.NoClamp infoFour ⟨10, 0, 0⟩
        = ⟨12, 2, 2⟩ ∧
      CellListInfo.getCellId CellListsProjection.NoClamp infoFour ⟨10, 0, 0⟩ = 43 ∧
      (∀ proj coo, CellListInfo.getCellId proj infoFour coo
          = CellListInfo.getCellId CellListsProjection.Clamp infoFour coo) := by
  refine ⟨?_, ?_, ?_⟩
  · show (⟨⌊(1 : ℚ) * (10 + 4 / 2)⌋, ⌊(1 : ℚ) * (0 + 4 / 2)⌋, ⌊(1 : ℚ) * (0 + 4 / 2)⌋⟩ : Int3)
        = ⟨12, 2, 2⟩
    norm_num
  · have h1 : ⌊(1 : ℚ) * (10 + 4 / 2)⌋ = 12 := by norm_num [Int.floor_eq_iff]
    have h2 : ⌊(1 : ℚ) * (0 + 4 / 2)⌋ = 2 := by norm_num [Int.floor_eq_iff]
    simp only [CellListInfo.getCellId, CellListInfo.getCellIdAlongAxes, infoFour, h1, h2]
    norm_num [CellListInfo.encode, min_def, max_def]
  · intro proj coo
    rcases proj with _ | _
    · rfl
    · unfold CellListInfo.getCellId
      rw [if_neg, if_neg]
      all_goals
        rintro ⟨-, hor⟩
        simp only [CellListInfo.getCellIdAlongAxes, infoFour] at hor
        rcases hor with h | h | h | h | h | h <;> omega

/-! ## Cell-list preparation (Simulation::prepareCellLists, part_009)

`std::sort` with comparator `a > b` is modelled by insertion sort under
`(· ≥ ·)` (for a total order the non-increasing result is unique up to
equal elements, hence equal as a value list); `std::unique` keeps the
first element of each run, comparing each candidate against the last
KEPT element.  A created cell list is modelled as its
(isPrimary, cutoff) pair. -/

/-- `sortDescendingOrder(v)`: sort by `a > b`. -/
def sortDescendingOrder (v : List ℚ) : List ℚ :=
  v.insertionSort (· ≥ ·)

/-- Tail worker of `removeDuplicatedElements`: `last` is the last kept
element. -/
def removeDupGo (tolerance : ℚ) (last : ℚ) : List ℚ → List ℚ
  | [] => []
  | y :: ys => if |last - y| < tolerance then removeDupGo tolerance last ys
               else y :: removeDupGo tolerance y ys

/-- `removeDuplicatedElements(v, tolerance)`: `std::unique` with
predicate `fabs(a - b) < tolerance`. -/
def removeDuplicatedElements (tolerance : ℚ) : List ℚ → List ℚ
  | [] => []
  | x :: xs => x :: removeDupGo tolerance x xs

/-- The `for (auto rc : cutoffs)` loop body: the first created list is
primary iff `primary` was still set; every subsequent one is not. -/
def mkCellLists (primary : Bool) : List ℚ → List (Bool × ℚ)
  | [] => []
  | rc :: rest => (primary, rc) :: mkCellLists false rest

/-- `Simulation::prepareCellLists` restricted to one particle vector:
`declared` is the multiset of cutoffs from interaction prototypes
binding this PV (empty iff the PV is bound to no interaction, in which
case the default cutoff 1.0 list is built).  `primary` starts as
`!isObjectVector` in both branches. -/
def Simulation.prepareCellListsFor (isObjectVector : Bool) (declared : List ℚ)
    (tolerance : ℚ) : List (Bool × ℚ) :=
  if declared.isEmpty then
    mkCellLists (!isObjectVector) [1]
  else
    mkCellLists (!isObjectVector)
      (removeDuplicatedElements tolerance (sortDescendingOrder declared))

theorem mkCellLists_map_snd (b : Bool) (l : List ℚ) :
    (mkCellLists b l).map Prod.snd = l := by
  induction l generalizing b with
  | nil => rfl
  | cons x xs ih => simp [mkCellLists, ih]

theorem mkCellLists_all_false (l : List ℚ) :
    ∀ p ∈ mkCellLists false l, p.1 = false := by
  induction l with
  | nil => simp [mkCellLists]
  | cons x xs ih =>
      intro p hp
      rcases List.mem_cons.1 hp with hp | hp
      · rw [hp]
      · exact ih p hp

theorem mkCellLists_head (b : Bool) (l : List ℚ) (p : Bool × ℚ)
    (hp : (mkCellLists b l).head? = some p) : p.1 = b := by
  cases l with
  | nil => simp [mkCellLists] at hp
  | cons x xs =>
      simp only [mkCellLists, List.head?_cons, Option.some.injEq] at hp
      rw [← hp]

theorem mkCellLists_tail_false (b : Bool) (l : List ℚ) :
    ∀ p ∈ (mkCellLists b l).tail, p.1 = false := by
  cases l with
  | nil => simp [mkCellLists]
  | cons x xs => exact fun p hp => mkCellLists_all_false xs p hp

theorem removeDupGo_sublist (tolerance last : ℚ) (l : List ℚ) :
    List.Sublist (removeDupGo tolerance last l) l := by
  induction l generalizing last with
  | nil => simp [removeDupGo]
  | cons y ys ih =>
      unfold removeDupGo
      split
      · exact (ih last).trans (List.sublist_cons_self y ys)
      · exact (ih y).cons₂ y

theorem removeDuplicatedElements_sublist (tolerance : ℚ) (l : List ℚ) :
    List.Sublist (removeDuplicatedElements tolerance l) l := by
  cases l with
  | nil => simp [removeDuplicatedElements]
  | cons x xs => exact (removeDupGo_sublist tolerance x xs).cons₂ x

theorem sortDescendingOrder_sorted (l : List ℚ) :
    List.Sorted (· ≥ ·) (sortDescendingOrder l) :=
  List.sorted_insertionSort (· ≥ ·) l

/-- C6: CONFIRMED.  For a particle vector bound to at least one
interaction (`declared ≠ []`), `prepareCellLists` builds exactly one
cell list per distinct declared cutoff — the descending-sorted,
tolerance-deduplicated cutoff list — in that (non-increasing) order;
the first cell list is primary iff the PV is not an ObjectVector, every
later one is secondary, and for an ObjectVector no primary cell list is
ever built (the default-cutoff branch for interaction-free PVs
included). -/
theorem prepareCellListsFor_spec (isOV : Bool) (declared : List ℚ) (tolerance : ℚ) :
    (declared ≠ [] →
        (Simulation.prepareCellListsFor isOV declared tolerance).map Prod.snd
          = removeDuplicatedElements tolerance (sortDescendingOrder declared)) ∧
      List.Sorted (· ≥ ·)
        ((Simulation.prepareCellListsFor isOV declared tolerance).map Prod.snd) ∧
      (∀ p, (Simulation.prepareCellListsFor isOV declared tolerance).head? = some p →
        p.1 = !isOV) ∧
      (∀ p ∈ (Simulation.prepareCellListsFor isOV declared tolerance).tail, p.1 = false) ∧
      (isOV = true →
        ∀ p ∈ Simulation.prepareCellListsFor isOV declared tolerance, p.1 = false) := by
  refine ⟨?_, ?_, ?_, ?_, ?_⟩
  · intro hne
    rw [Simulation.prepareCellListsFor, if_neg (by simpa using hne)]
    exact mkCellLists_map_snd _ _
  · unfold Simulation.prepareCellListsFor
    split
    · rw [mkCellLists_map_snd]
      simp
    · rw [mkCellLists_map_snd]
      exact ((sortDescendingOrder_sorted declared).sublist
        (removeDuplicatedElements_sublist tolerance _))
  · unfold Simulation.prepareCellListsFor
    split
    · exact fun p hp => mkCellLists_head _ _ p hp
    · exact fun p hp => mkCellLists_head _ _ p hp
  · unfold Simulation.prepareCellListsFor
    split
    · exact mkCellLists_tail_false _ _
    · exact mkCellLists_tail_false _ _
  · intro hov
    subst hov
    unfold Simulation.prepareCellListsFor
    split
    · exact mkCellLists_all_false _
    · exact mkCellLists_all_false _

/-- Witness for C6 at a concrete input: an ObjectVector with declared
cutoffs [1, 3/2, 1] and tolerance 1/10 gets cell lists for the
deduplicated descending cutoffs, and none of them is primary. -/
theorem prepareCellListsFor_spec_witness :
    (Simulation.prepareCellListsFor true [1, 3/2, 1] (1/10)).map Prod.snd
        = removeDuplicatedElements (1/10) (sortDescendingOrder [1, 3/2, 1]) ∧
      ((true, 3/2) : Bool × ℚ) ∉ Simulation.prepareCellListsFor true [1, 3/2, 1] (1/10) := by
  have h := prepareCellListsFor_spec true [1, 3/2, 1] (1/10)
  exact ⟨h.1 (by simp), fun hmem => by simpa using h.2.2.2.2 rfl _ hmem⟩

/-! ## Best cell-list selection (selectBestClist, part_009)

A cell list is identified by its cutoff `cl->rc`; `minDiff` starts at
the literal `1e6`. -/

/-- The loop of `selectBestClist` over the remaining cell lists with the
current `best` and `minDiff` accumulators. -/
def selectGo (rc tolerance : ℚ) : List ℚ → Option ℚ → ℚ → Option ℚ
  | [], best, _ => best
  | cl :: rest, best, minDiff =>
      if cl - rc > -tolerance ∧ cl - rc < minDiff then
        selectGo rc tolerance rest (some cl) (cl - rc)
      else
        selectGo rc tolerance rest best minDiff

/-- `selectBestClist(cellLists, rc, tolerance)`:
`float minDiff = 1e6; CellList* best = nullptr;` then the scan. -/
def selectBestClist (cellLists : List ℚ) (rc tolerance : ℚ) : Option ℚ :=
  selectGo rc tolerance cellLists none 1000000

/-- C7 counterexample: CLAIM FALSE AS STATED.  `minDiff` is initialised
to the sentinel `1e6`, so a qualifying cell list whose `cl.rc - rc` is
at least `1e6` is never selected: with a single cell list of cutoff
2·10⁶ and requested cutoff 0, the list qualifies
(`cl.rc - rc > -tolerance`) yet `selectBestClist` returns null. -/
theorem selectBestClist_misses_qualifying_list :
    selectBestClist [2000000] 0 1 = none ∧ (2000000 : ℚ) - 0 > -1 := by
  constructor
  · show selectGo 0 1 [2000000] none 1000000 = none
    rw [selectGo, if_neg (by norm_num), selectGo]
  · norm_num

theorem selectGo_characterization (rc tolerance : ℚ) (cls : List ℚ)
    (best : Option ℚ) (minDiff : ℚ) :
    (selectGo rc tolerance cls best minDiff = none →
        best = none ∧ ∀ c ∈ cls, ¬(-tolerance < c - rc ∧ c - rc < minDiff)) ∧
      (∀ b, selectGo rc tolerance cls best minDiff = some b →
        (b ∈ cls ∧ -tolerance < b - rc ∧ b - rc < minDiff ∧
            ∀ c ∈ cls, -tolerance < c - rc → c - rc < minDiff → b - rc ≤ c - rc)
          ∨ (best = some b ∧
              ∀ c ∈ cls, -tolerance < c - rc → c - rc < minDiff → False)) := by
  induction cls generalizing best minDiff with
  | nil => exact ⟨fun h => ⟨h, by simp⟩, fun b hb => Or.inr ⟨hb, by simp⟩⟩
  | cons cl rest ih =>
      constructor
      · intro h
        rw [selectGo] at h
        split at h
        · exact absurd ((ih _ _).1 h).1 (by simp)
        · rename_i hcond
          obtain ⟨hb, hall⟩ := (ih _ _).1 h
          refine ⟨hb, ?_⟩
          intro c hc
          rcases List.mem_cons.1 hc with hc | hc
          · subst hc
            intro hq
            exact hcond ⟨hq.1, hq.2⟩
          · exact hall c hc
      · intro b hb
        rw [selectGo] at hb
        split at hb
        · rename_i hcond
          left
          rcases (ih _ _).2 b hb with ⟨hmem, hq, hlt, hmin⟩ | ⟨hbest, hnone⟩
          · refine ⟨List.mem_cons_of_mem cl hmem, hq, lt_trans hlt hcond.2, ?_⟩
            intro c hc hq2 hlt2
            rcases List.mem_cons.1 hc with hc | hc
            · subst hc
              exact le_of_lt hlt
            · by_cases hcl : c - rc < cl - rc
              · exact hmin c hc hq2 hcl
              · exact le_trans (le_of_lt hlt) (not_lt.mp hcl)
          · obtain rfl : cl = b := by simpa using hbest
            refine ⟨List.mem_cons_self cl rest, hcond.1, hcond.2, ?_⟩
            intro c hc hq2 hlt2
            rcases List.mem_cons.1 hc with hc | hc
            · subst hc
              exact le_refl _
            · by_cases hcl : c - rc < cl - rc
              · exact absurd (hnone c hc hq2 hcl) not_false
              · exact not_lt.mp hcl
        · rename_i hcond
          rcases (ih _ _).2 b hb with ⟨hmem, hq, hlt, hmin⟩ | ⟨hbest, hnone⟩
          · left
            refine ⟨List.mem_cons_of_mem cl hmem, hq, hlt, ?_⟩
            intro c hc hq2 hlt2
            rcases List.mem_cons.1 hc with hc | hc
            · subst hc
              exact absurd ⟨hq2, hlt2⟩ hcond
            · exact hmin c hc hq2 hlt2
          · right
            refine ⟨hbest, ?_⟩
            intro c hc hq2 hlt2
            rcases List.mem_cons.1 hc with hc | hc
            · subst hc
              exact hcond ⟨hq2, hlt2⟩
            · exact hnone c hc hq2 hlt2

/-- C7 amended: CONFIRMED with the sentinel made explicit.
`selectBestClist` returns, among the particle vector's cell lists, one
whose cutoff minimises `cl.rc - rc` subject to BOTH
`cl.rc - rc > -tolerance` AND `cl.rc - rc < 1e6` (the initial `minDiff`
sentinel), and returns null exactly when no cell list satisfies both
conditions. -/
theorem selectBestClist_spec (cls : List ℚ) (rc tolerance : ℚ) :
    (selectBestClist cls rc tolerance = none →
        ∀ c ∈ cls, ¬(-tolerance < c - rc ∧ c - rc < 1000000)) ∧
      (∀ b, selectBestClist cls rc tolerance = some b →
        b ∈ cls ∧ -tolerance < b - rc ∧ b - rc < 1000000 ∧
          ∀ c ∈ cls, -tolerance < c - rc → c - rc < 1000000 → b - rc ≤ c - rc) := by
  constructor
  · intro h
    exact ((selectGo_characterization rc tolerance cls none 1000000).1 h).2
  · intro b hb
    rcases (selectGo_characterization rc tolerance cls none 1000000).2 b hb with
      h | ⟨hbest, -⟩
    · exact h
    · exact absurd hbest (by simp)

/-- Witness for C7's amended statement: on cell lists with cutoffs
[2, 3], requested cutoff 1, tolerance 1/2, the selection returns the
cutoff-2 list, which qualifies and minimises the difference. -/
theorem selectBestClist_spec_witness :
    (2 : ℚ) ∈ [(2 : ℚ), 3] ∧ -(1/2 : ℚ) < (2 : ℚ) - 1 ∧ ((2 : ℚ) - 1 < 1000000) ∧
      ∀ c ∈ [(2 : ℚ), 3], -(1/2 : ℚ) < c - 1 → c - 1 < 1000000 → (2 : ℚ) - 1 ≤ c - 1 :=
  (selectBestClist_spec [2, 3] 1 (1/2)).2 2 (by
    show selectGo 1 (1/2) [2, 3] none 1000000 = some 2
    rw [selectGo, if_pos (by norm_num), selectGo, if_neg (by norm_num), selectGo])

/-! ## Pairwise self-interaction kernel
(core/interactions/pairwise_kernels.h: `computeCell`,
`computeSelfInteractions`)

The kernel is embedded as the multiset (list) of processed
`(dstId, srcId)` pairs.  The cell list the kernel reads is represented
by the particle position array `pos` in cell-major order together with
the canonical `cellStarts` prefix counts; the validity hypothesis of the
theorems is that `pos` is sorted by encoded cell id, which is what
`CellList::build` establishes. -/

/-- `distance2(a, b)`. -/
def distance2 (a b : Q3) : ℚ :=
  (a.x - b.x) ^ 2 + (a.y - b.y) ^ 2 + (a.z - b.z) ^ 2

/-- `ParticleFetcher::withinCutoff(src, dst)`:
`distance2(src.r, dst.r) < rc2`. -/
def withinCutoff (src dst : Q3) (rc2 : ℚ) : Prop :=
  distance2 src dst < rc2

instance (src dst : Q3) (rc2 : ℚ) : Decidable (withinCutoff src dst rc2) :=
  inferInstanceAs (Decidable (distance2 src dst < rc2))

/-- The clamped cell triple of a position — what both `CellList::build`
and the kernel's `cinfo.getCellIdAlongAxes(...)` (default `Clamp`)
compute. -/
def cellOf (info : CellListInfo) (p : Q3) : Int3 :=
  CellListInfo.getCellIdAlongAxes CellListsProjection.Clamp info p

/-- The encoded (linear) cell id of a position. -/
def cellIdOf (info : CellListInfo) (p : Q3) : ℤ :=
  info.encode3 (cellOf info p)

/-- `cellStarts[c]` of a correctly built cell list over `pos`: the
number of particles whose cell id is below `c`. -/
def cellStarts (info : CellListInfo) (pos : List Q3) (c : ℤ) : ℕ :=
  pos.countP (fun p => decide (cellIdOf info p < c))

/-- `computeCell<NeedAcc, NeedAcc, InteractWith>(pstart, pend, dstP,
dstId, ...)`: the loop over `srcId ∈ [pstart, pend)` keeps the pairs
within the cutoff, and in `Self` mode (`isSelf`) drops a pair unless
`dstId > srcId`; each processed pair contributes `(dstId, srcId)` with
the force added to both sides. -/
def computeCell (isSelf : Bool) (pstart pend : ℕ) (dstP : Q3) (dstId : ℕ)
    (pos : List Q3) (rc2 : ℚ) : List (ℕ × ℕ) :=
  ((List.range' pstart (pend - pstart)).filter (fun srcId =>
      decide (withinCutoff (pos.getD srcId ⟨0, 0, 0⟩) dstP rc2)
        && (!isSelf || decide (srcId < dstId)))).map (fun srcId => (dstId, srcId))

/-- One (cellY, cellZ) row of the traversal in
`computeSelfInteractions`: the bounds check, the skip of the
already-covered (y0, z0+1) row, the row interval
`[max(mid-1,0), min(mid+2,totcells))` of cell ids (the center row's end
overwritten by `mid+1`), and the `computeCell` call in `Self` mode for
the center row, `Other` mode otherwise. -/
def selfRowPairs (info : CellListInfo) (pos : List Q3) (rc2 : ℚ) (dstId : ℕ)
    (dstP : Q3) (cell0 : Int3) (cellY cellZ : ℤ) : List (ℕ × ℕ) :=
  if 0 ≤ cellY ∧ cellY < info.ncells.y ∧ 0 ≤ cellZ ∧ cellZ < info.ncells.z then
    if cellY = cell0.y ∧ cellZ > cell0.z then []
    else
      computeCell (decide (cellY = cell0.y ∧ cellZ = cell0.z))
        (cellStarts info pos (max (info.encode cell0.x cellY cellZ - 1) 0))
        (cellStarts info pos
          (if cellY = cell0.y ∧ cellZ = cell0.z then info.encode cell0.x cellY cellZ + 1
           else min (info.encode cell0.x cellY cellZ + 2) info.totcells))
        dstP dstId pos rc2
  else []

/-- One thread of `computeSelfInteractions`: the traversal visits the
(cellY, cellZ) rows in loop order — `cellZ ∈ {z0-1, z0, z0+1}` outer,
`cellY ∈ {y0-1, y0}` inner — and finally adds the `(dstId, dstId)` self
pair when `needSelfInteraction` holds for the interaction. -/
def selfThreadPairs (info : CellListInfo) (pos : List Q3) (rc2 : ℚ)
    (needSelf : Bool) (dstId : ℕ) : List (ℕ × ℕ) :=
  selfRowPairs info pos rc2 dstId (pos.getD dstId ⟨0, 0, 0⟩)
      (cellOf info (pos.getD dstId ⟨0, 0, 0⟩))
      ((cellOf info (pos.getD dstId ⟨0, 0, 0⟩)).y - 1)
      ((cellOf info (pos.getD dstId ⟨0, 0, 0⟩)).z - 1)
    ++ (selfRowPairs info pos rc2 dstId (pos.getD dstId ⟨0, 0, 0⟩)
        (cellOf info (pos.getD dstId ⟨0, 0, 0⟩))
        ((cellOf info (pos.getD dstId ⟨0, 0, 0⟩)).y)
        ((cellOf info (pos.getD dstId ⟨0, 0, 0⟩)).z - 1)
    ++ (selfRowPairs info pos rc2 dstId (pos.getD dstId ⟨0, 0, 0⟩)
        (cellOf info (pos.getD dstId ⟨0, 0, 0⟩))
        ((cellOf info (pos.getD dstId ⟨0, 0, 0⟩)).y - 1)
        ((cellOf info (pos.getD dstId ⟨0, 0, 0⟩)).z)
    ++ (selfRowPairs info pos rc2 dstId (pos.getD dstId ⟨0, 0, 0⟩)
        (cellOf info (pos.getD dstId ⟨0, 0, 0⟩))
        ((cellOf info (pos.getD dstId ⟨0, 0, 0⟩)).y)
        ((cellOf info (pos.getD dstId ⟨0, 0, 0⟩)).z)
    ++ (selfRowPairs info pos rc2 dstId (pos.getD dstId ⟨0, 0, 0⟩)
        (cellOf info (pos.getD dstId ⟨0, 0, 0⟩))
        ((cellOf info (pos.getD dstId ⟨0, 0, 0⟩)).y - 1)
        ((cellOf info (pos.getD dstId ⟨0, 0, 0⟩)).z + 1)
    ++ (selfRowPairs info pos rc2 dstId (pos.getD dstId ⟨0, 0, 0⟩)
        (cellOf info (pos.getD dstId ⟨0, 0, 0⟩))
        ((cellOf info (pos.getD dstId ⟨0, 0, 0⟩)).y)
        ((cellOf info (pos.getD dstId ⟨0, 0, 0⟩)).z + 1)
    ++ (if needSelf then [(dstId, dstId)] else []))))))

/-- `computeSelfInteractions`: one thread per particle of the view. -/
def computeSelfInteractions (info : CellListInfo) (pos : List Q3) (rc2 : ℚ)
    (needSelf : Bool) : List (ℕ × ℕ) :=
  (List.range pos.length).flatMap (selfThreadPairs info pos rc2 needSelf)

/-- Number of times the unordered pair {i, j} occurs among the
processed pairs. -/
def pairCount (l : List (ℕ × ℕ)) (i j : ℕ) : ℕ :=
  l.countP (fun p => decide (p = (i, j) ∨ p = (j, i)))

/-! ### Arithmetic facts about cells -/

theorem axis_floor_bounds (n : ℤ) (hq x : ℚ) (_hn : 0 < n) (hh : 0 < hq)
    (hxl : -(n * hq) / 2 ≤ x) (hxu : x < n * hq / 2) :
    0 ≤ ⌊1 / hq * (x + n * hq / 2)⌋ ∧ ⌊1 / hq * (x + n * hq / 2)⌋ < n := by
  have hs : (0 : ℚ) ≤ x + n * hq / 2 := by linarith
  have hs2 : x + n * hq / 2 < n * hq := by linarith
  constructor
  · apply Int.floor_nonneg.mpr
    positivity
  · apply Int.floor_lt.mpr
    rw [one_div, inv_mul_eq_div, div_lt_iff₀ hh]
    linarith

theorem clamp_eq_self (n v : ℤ) (h0 : 0 ≤ v) (hlt : v < n) :
    min (n - 1) (max 0 v) = v := by
  omega

theorem floor_diff_le_one (a b : ℚ) (h : |a - b| < 1) :
    ⌊a⌋ - ⌊b⌋ ≤ 1 ∧ ⌊b⌋ - ⌊a⌋ ≤ 1 := by
  rw [abs_lt] at h
  have h1 : ⌊a⌋ ≤ ⌊b⌋ + 1 := by
    have : a ≤ b + (1 : ℤ) := by push_cast; linarith
    have := Int.floor_le_floor this
    rwa [Int.floor_add_int] at this
  have h2 : ⌊b⌋ ≤ ⌊a⌋ + 1 := by
    have : b ≤ a + (1 : ℤ) := by push_cast; linarith
    have := Int.floor_le_floor this
    rwa [Int.floor_add_int] at this
  omega

theorem abs_lt_of_sq_bound (dx dy dz rc : ℚ) (hrc : 0 < rc)
    (h : dx ^ 2 + dy ^ 2 + dz ^ 2 < rc * rc) : |dx| < rc ∧ |dy| < rc ∧ |dz| < rc := by
  refine ⟨?_, ?_, ?_⟩ <;>
    · by_contra hc
      push_neg at hc
      nlinarith [abs_nonneg dx, abs_nonneg dy, abs_nonneg dz, sq_abs dx, sq_abs dy,
        sq_abs dz, sq_nonneg dx, sq_nonneg dy, sq_nonneg dz]

/-- `encode3 b - encode(a.x, cellY, cellZ)` in terms of the coordinate
differences. -/
theorem encode_diff (info : CellListInfo) (b : Int3) (ax cellY cellZ : ℤ) :
    info.encode3 b - info.encode ax cellY cellZ
      = (b.x - ax) + info.ncells.x * ((b.y - cellY) + info.ncells.y * (b.z - cellZ)) := by
  unfold CellListInfo.encode3 CellListInfo.encode
  ring

theorem encode_bounds (info : CellListInfo) (c : Int3)
    (hx : 0 ≤ c.x ∧ c.x < info.ncells.x) (hy : 0 ≤ c.y ∧ c.y < info.ncells.y)
    (hz : 0 ≤ c.z ∧ c.z < info.ncells.z) :
    0 ≤ info.encode3 c ∧ info.encode3 c
      < info.ncells.x * info.ncells.y * info.ncells.z := by
  obtain ⟨hx0, hx1⟩ := hx
  obtain ⟨hy0, hy1⟩ := hy
  obtain ⟨hz0, hz1⟩ := hz
  have hnx : 0 < info.ncells.x := by omega
  have hny : 0 < info.ncells.y := by omega
  unfold CellListInfo.encode3 CellListInfo.encode
  constructor
  · have h1 : 0 ≤ c.z * info.ncells.y + c.y := by positivity
    have h2 : 0 ≤ (c.z * info.ncells.y + c.y) * info.ncells.x := by positivity
    omega
  · have h1 : c.z * info.ncells.y + c.y ≤ info.ncells.z * info.ncells.y - 1 := by
      nlinarith
    have h2 : (c.z * info.ncells.y + c.y) * info.ncells.x
        ≤ (info.ncells.z * info.ncells.y - 1) * info.ncells.x := by
      exact mul_le_mul_of_nonneg_right h1 (by omega)
    nlinarith

/-- The row-interval criterion: with at least 3 cells along x and y and
the target cell at most one cell away from the destination cell along
x, the target's id lies in `[mid-1, mid+2)` exactly when the target's
(y, z) equals the row's (cellY, cellZ). -/
theorem row_hit_aux (nx ny e1 e2 e3 : ℤ) (hnx : 3 ≤ nx) (hny : 3 ≤ ny)
    (h1 : |e1| ≤ 1) (h2 : |e2| ≤ 2) (h3 : |e3| ≤ 2) :
    (-1 ≤ e1 + nx * (e2 + ny * e3) ∧ e1 + nx * (e2 + ny * e3) < 2)
      ↔ (e2 = 0 ∧ e3 = 0) := by
  rw [abs_le] at h1 h2 h3
  constructor
  · rintro ⟨hl, hu⟩
    by_contra hne
    have key : 2 ≤ |e1 + nx * (e2 + ny * e3)| := by
      have habs : ∀ A B : ℤ, |B| - |A| ≤ |A + B| := by
        intro A B
        have h4 := abs_add (A + B) (-A)
        have h5 : A + B + -A = B := by ring
        rw [h5, abs_neg] at h4
        omega
      rcases eq_or_ne e3 0 with h30 | h30
      · subst h30
        have h20 : e2 ≠ 0 := fun h => hne ⟨h, rfl⟩
        have h21 : 1 ≤ |e2| := Int.one_le_abs h20
        have h22 : 3 ≤ |nx * (e2 + ny * 0)| := by
          rw [mul_zero, add_zero, abs_mul, abs_of_nonneg (by omega : (0 : ℤ) ≤ nx)]
          nlinarith
        have he1 : |e1| ≤ 1 := abs_le.mpr h1
        have h23 := habs e1 (nx * (e2 + ny * 0))
        linarith
      · have h31 : 1 ≤ |e3| := Int.one_le_abs h30
        have hinner : 1 ≤ |e2 + ny * e3| := by
          have hny3 : 3 ≤ |ny * e3| := by
            rw [abs_mul, abs_of_nonneg (by omega : (0 : ℤ) ≤ ny)]
            nlinarith
          have h6 := abs_add (e2 + ny * e3) (-e2)
          have h5 : e2 + ny * e3 + -e2 = ny * e3 := by ring
          rw [h5, abs_neg] at h6
          have he2 : |e2| ≤ 2 := abs_le.mpr h2
          linarith
        have houter : 3 ≤ |nx * (e2 + ny * e3)| := by
          rw [abs_mul, abs_of_nonneg (by omega : (0 : ℤ) ≤ nx)]
          nlinarith
        have he1 : |e1| ≤ 1 := abs_le.mpr h1
        have h23 := habs e1 (nx * (e2 + ny * e3))
        linarith
    rcases le_abs.mp key with h | h <;> linarith
  · rintro ⟨rfl2, rfl3⟩
    rw [rfl2, rfl3]
    constructor <;> [nlinarith; nlinarith]

/-! ### Counting lemmas -/

theorem countP_ext {α : Type} (l : List α) (p q : α → Bool) (h : ∀ a, p a = q a) :
    l.countP p = l.countP q := by
  rw [funext h]

theorem countP_flatMap {α β : Type} (p : β → Bool) (f : α → List β) (l : List α) :
    (l.flatMap f).countP p = (l.map fun a => (f a).countP p).sum := by
  induction l with
  | nil => simp
  | cons a tl ih => simp [List.flatMap_cons, ih]

theorem getD_lt_mem {α : Type} (l : List α) (k : ℕ) (d : α) (hk : k < l.length) :
    l.getD k d ∈ l := by
  induction l generalizing k with
  | nil => simp at hk
  | cons a tl ih =>
      cases k with
      | zero => simp
      | succ m =>
          rw [List.getD_cons_succ]
          exact List.mem_cons_of_mem a (ih m (by simpa using hk))

theorem getD_map_of_lt {α β : Type} (f : α → β) (l : List α) (k : ℕ) (d : α) (e : β)
    (hk : k < l.length) : (l.map f).getD k e = f (l.getD k d) := by
  induction l generalizing k with
  | nil => simp at hk
  | cons a tl ih =>
      cases k with
      | zero => rfl
      | succ m =>
          rw [List.map_cons, List.getD_cons_succ, List.getD_cons_succ]
          exact ih m (by simpa using hk)

theorem sorted_countP_lt (ids : List ℤ) (hs : List.Pairwise (· ≤ ·) ids) (k : ℕ)
    (hk : k < ids.length) (c : ℤ) :
    (k < ids.countP fun v => decide (v < c)) ↔ ids.getD k 0 < c := by
  induction ids generalizing k with
  | nil => simp at hk
  | cons a tl ih =>
      obtain ⟨ha, hs2⟩ := List.pairwise_cons.mp hs
      rw [List.countP_cons]
      by_cases hac : a < c
      · rw [if_pos (by simpa using hac)]
        cases k with
        | zero => simp [hac]
        | succ m =>
            rw [List.getD_cons_succ]
            have hm : m < tl.length := by simpa using hk
            rw [← ih hs2 m hm]
            omega
      · have h0 : tl.countP (fun v => decide (v < c)) = 0 :=
          List.countP_eq_zero.mpr fun b hb => by
            simpa using not_lt.mpr (le_trans (not_lt.mp hac) (ha b hb))
        rw [if_neg (by simpa using hac), h0]
        cases k with
        | zero => simp [hac]
        | succ m =>
            rw [List.getD_cons_succ]
            have hm : m < tl.length := by simpa using hk
            have hmem : tl.getD m 0 ∈ tl := getD_lt_mem tl m 0 hm
            constructor
            · intro h; omega
            · intro h
              exact absurd h (not_lt.mpr (le_trans (not_lt.mp hac) (ha _ hmem)))

/-- For a cell-sorted particle array, the canonical `cellStarts` prefix
counts delimit exactly the particles of the given cell-id range. -/
theorem cellStarts_iff (info : CellListInfo) (pos : List Q3)
    (hs : List.Pairwise (fun p q => cellIdOf info p ≤ cellIdOf info q) pos)
    (k : ℕ) (hk : k < pos.length) (c : ℤ) :
    (k < cellStarts info pos c ↔ cellIdOf info (pos.getD k ⟨0, 0, 0⟩) < c) ∧
      (cellStarts info pos c ≤ k ↔ c ≤ cellIdOf info (pos.getD k ⟨0, 0, 0⟩)) := by
  have hmap : cellStarts info pos c
      = (pos.map (cellIdOf info)).countP fun v => decide (v < c) := by
    rw [List.countP_map]
    rfl
  have hsm : List.Pairwise (· ≤ ·) (pos.map (cellIdOf info)) :=
    List.pairwise_map.mpr hs
  have hkm : k < (pos.map (cellIdOf info)).length := by simpa using hk
  have hgd : (pos.map (cellIdOf info)).getD k 0 = cellIdOf info (pos.getD k ⟨0, 0, 0⟩) :=
    getD_map_of_lt _ _ _ _ _ hk
  have h1 := sorted_countP_lt (pos.map (cellIdOf info)) hsm k hkm c
  rw [hgd] at h1
  rw [hmap]
  exact ⟨h1, by rw [← not_lt, h1, not_lt]⟩

theorem countP_range'_eq (j : ℕ) (Q : ℕ → Bool) : ∀ (len ps : ℕ),
    ((List.range' ps len).countP fun s => decide (s = j) && Q s)
      = if ps ≤ j ∧ j < ps + len ∧ Q j = true then 1 else 0 := by
  intro len
  induction len with
  | zero =>
      intro ps
      rw [if_neg (by rintro ⟨h1, h2, -⟩; omega)]
      rfl
  | succ m ih =>
      intro ps
      rw [List.range'_succ, List.countP_cons, ih (ps + 1)]
      by_cases hq : Q j = true
      · by_cases hpj : ps = j
        · subst hpj
          rw [if_neg (show ¬(ps + 1 ≤ ps ∧ ps < ps + 1 + m ∧ Q ps = true) from
                fun h => by omega),
            if_pos (show (decide (ps = ps) && Q ps) = true by simp [hq]),
            if_pos (show ps ≤ ps ∧ ps < ps + (m + 1) ∧ Q ps = true from
                ⟨le_refl ps, by omega, hq⟩)]
        · by_cases hLe : ps + 1 ≤ j ∧ j < ps + 1 + m
          · rw [if_pos (show ps + 1 ≤ j ∧ j < ps + 1 + m ∧ Q j = true from
                  ⟨hLe.1, hLe.2, hq⟩),
              if_neg (show ¬((decide (ps = j) && Q ps) = true) by simp [hpj]),
              if_pos (show ps ≤ j ∧ j < ps + (m + 1) ∧ Q j = true from
                  ⟨by omega, by omega, hq⟩)]
          · rw [if_neg (show ¬(ps + 1 ≤ j ∧ j < ps + 1 + m ∧ Q j = true) from
                  fun h => hLe ⟨h.1, h.2.1⟩),
              if_neg (show ¬((decide (ps = j) && Q ps) = true) by simp [hpj]),
              if_neg (show ¬(ps ≤ j ∧ j < ps + (m + 1) ∧ Q j = true) from
                  fun h => hLe ⟨by omega, by omega⟩)]
      · rw [if_neg (show ¬(ps + 1 ≤ j ∧ j < ps + 1 + m ∧ Q j = true) from
              fun h => hq h.2.2),
          if_neg (show ¬((decide (ps = j) && Q ps) = true) from by
              simp only [Bool.and_eq_true, decide_eq_true_eq]
              rintro ⟨rfl, hQp⟩
              exact hq hQp),
          if_neg (show ¬(ps ≤ j ∧ j < ps + (m + 1) ∧ Q j = true) from
              fun h => hq h.2.2)]

/-- The number of contributions of the unordered pair {d, s} made by one
`computeCell` call with destination `d`. -/
theorem computeCell_countP (isSelf : Bool) (ps pe : ℕ) (dstP : Q3) (d s : ℕ)
    (hds : d ≠ s) (pos : List Q3) (rc2 : ℚ) :
    ((computeCell isSelf ps pe dstP d pos rc2).countP
        fun p => decide (p = (d, s) ∨ p = (s, d)))
      = if ps ≤ s ∧ s < pe ∧ withinCutoff (pos.getD s ⟨0, 0, 0⟩) dstP rc2
            ∧ (isSelf = true → s < d)
        then 1 else 0 := by
  unfold computeCell
  rw [List.countP_map, List.countP_filter]
  simp only [Function.comp_def, Prod.mk.injEq, hds, eq_self_iff_true, true_and,
    false_and, or_false, and_false]
  rw [countP_range'_eq s]
  have hQs : ((decide (withinCutoff (pos.getD s ⟨0, 0, 0⟩) dstP rc2)
        && (!isSelf || decide (s < d))) = true)
      ↔ (withinCutoff (pos.getD s ⟨0, 0, 0⟩) dstP rc2 ∧ (isSelf = true → s < d)) := by
    simp only [Bool.and_eq_true, decide_eq_true_eq, Bool.or_eq_true, Bool.not_eq_true']
    constructor
    · rintro ⟨hw, h⟩
      refine ⟨hw, fun hself => ?_⟩
      rcases h with h | h
      · rw [hself] at h; cases h
      · exact h
    · rintro ⟨hw, h⟩
      refine ⟨hw, ?_⟩
      cases isSelf with
      | false => exact Or.inl rfl
      | true => exact Or.inr (h rfl)
  by_cases hcond : ps ≤ s ∧ s < pe ∧ withinCutoff (pos.getD s ⟨0, 0, 0⟩) dstP rc2
      ∧ (isSelf = true → s < d)
  · rw [if_pos hcond,
      if_pos (show ps ≤ s ∧ s < ps + (pe - ps)
            ∧ (decide (withinCutoff (pos.getD s ⟨0, 0, 0⟩) dstP rc2)
                && (!isSelf || decide (s < d))) = true from
          ⟨hcond.1, by omega, hQs.mpr ⟨hcond.2.2.1, hcond.2.2.2⟩⟩)]
  · rw [if_neg hcond,
      if_neg (show ¬(ps ≤ s ∧ s < ps + (pe - ps)
            ∧ (decide (withinCutoff (pos.getD s ⟨0, 0, 0⟩) dstP rc2)
                && (!isSelf || decide (s < d))) = true) from
          fun h => hcond ⟨h.1, by omega, (hQs.mp h.2.2).1, (hQs.mp h.2.2).2⟩)]

theorem sum_map_range_pair_aux (g : ℕ → ℕ) (i j : ℕ) (hij : i ≠ j)
    (hzero : ∀ k, k ≠ i → k ≠ j → g k = 0) :
    ∀ n, ((List.range n).map g).sum
      = (if i < n then g i else 0) + (if j < n then g j else 0) := by
  intro n
  induction n with
  | zero => simp
  | succ m ih =>
      rw [List.range_succ, List.map_append, List.sum_append, ih]
      simp only [List.map_cons, List.map_nil, List.sum_cons, List.sum_nil]
      by_cases hmi : m = i
      · subst hmi
        split_ifs <;> omega
      · by_cases hmj : m = j
        · subst hmj
          split_ifs <;> omega
        · rw [hzero m hmi hmj]
          split_ifs <;> omega

theorem sum_map_range_pair (g : ℕ → ℕ) (n i j : ℕ) (hij : i ≠ j) (hin : i < n)
    (hjn : j < n) (hzero : ∀ k, k ≠ i → k ≠ j → g k = 0) :
    ((List.range n).map g).sum = g i + g j := by
  rw [sum_map_range_pair_aux g i j hij hzero n, if_pos hin, if_pos hjn]

theorem selfRowPairs_fst (info : CellListInfo) (pos : List Q3) (rc2 : ℚ)
    (dstId : ℕ) (dstP : Q3) (cell0 : Int3) (cellY cellZ : ℤ) :
    ∀ p ∈ selfRowPairs info pos rc2 dstId dstP cell0 cellY cellZ, p.1 = dstId := by
  intro p hp
  unfold selfRowPairs at hp
  split at hp
  · split at hp
    · simp at hp
    · unfold computeCell at hp
      rcases List.mem_map.1 hp with ⟨srcId, -, hpe⟩
      rw [← hpe]
  · simp at hp

theorem selfThreadPairs_fst (info : CellListInfo) (pos : List Q3) (rc2 : ℚ)
    (needSelf : Bool) (k : ℕ) :
    ∀ p ∈ selfThreadPairs info pos rc2 needSelf k, p.1 = k := by
  intro p hp
  unfold selfThreadPairs at hp
  rcases List.mem_append.1 hp with hp | hp
  · exact selfRowPairs_fst _ _ _ _ _ _ _ _ p hp
  rcases List.mem_append.1 hp with hp | hp
  · exact selfRowPairs_fst _ _ _ _ _ _ _ _ p hp
  rcases List.mem_append.1 hp with hp | hp
  · exact selfRowPairs_fst _ _ _ _ _ _ _ _ p hp
  rcases List.mem_append.1 hp with hp | hp
  · exact selfRowPairs_fst _ _ _ _ _ _ _ _ p hp
  rcases List.mem_append.1 hp with hp | hp
  · exact selfRowPairs_fst _ _ _ _ _ _ _ _ p hp
  rcases List.mem_append.1 hp with hp | hp
  · exact selfRowPairs_fst _ _ _ _ _ _ _ _ p hp
  split at hp
  · rw [List.mem_singleton] at hp
    rw [hp]
  · simp at hp

theorem selfThreadPairs_countP_ne (info : CellListInfo) (pos : List Q3) (rc2 : ℚ)
    (needSelf : Bool) (i j k : ℕ) (hki : k ≠ i) (hkj : k ≠ j) :
    ((selfThreadPairs info pos rc2 needSelf k).countP
      fun p => decide (p = (i, j) ∨ p = (j, i))) = 0 :=
  List.countP_eq_zero.mpr fun p hp => by
    have hfst := selfThreadPairs_fst info pos rc2 needSelf k p hp
    simp only [decide_eq_true_eq]
    rintro (rfl | rfl)
    · exact hki hfst.symm
    · exact hkj hfst.symm

theorem sorted_getD_lt (pos : List Q3) (f : Q3 → ℤ)
    (hs : List.Pairwise (fun p q => f p ≤ f q) pos) (i j : ℕ)
    (hin : i < pos.length) (hjn : j < pos.length)
    (hfl : f (pos.getD j ⟨0, 0, 0⟩) < f (pos.getD i ⟨0, 0, 0⟩)) : j < i := by
  by_contra hcon
  have hle : i ≤ j := not_lt.mp hcon
  rcases eq_or_lt_of_le hle with rfl | hlt
  · exact lt_irrefl _ hfl
  · have hp := List.pairwise_iff_get.mp hs ⟨i, hin⟩ ⟨j, hjn⟩ (by simpa using hlt)
    have hgi : pos.getD i ⟨0, 0, 0⟩ = pos.get ⟨i, hin⟩ := by
      rw [List.getD_eq_getElem?_getD, List.getElem?_eq_getElem hin]
      rfl
    have hgj : pos.getD j ⟨0, 0, 0⟩ = pos.get ⟨j, hjn⟩ := by
      rw [List.getD_eq_getElem?_getD, List.getElem?_eq_getElem hjn]
      rfl
    rw [hgi, hgj] at hfl
    exact absurd hp (not_le.mpr hfl)

theorem row_hit_aux_center (nx ny e1 e2 e3 : ℤ) (hnx : 3 ≤ nx) (hny : 3 ≤ ny)
    (h1 : |e1| ≤ 1) (h2 : |e2| ≤ 2) (h3 : |e3| ≤ 2) :
    (-1 ≤ e1 + nx * (e2 + ny * e3) ∧ e1 + nx * (e2 + ny * e3) < 1)
      ↔ (e2 = 0 ∧ e3 = 0 ∧ e1 ≤ 0) := by
  have hrh := row_hit_aux nx ny e1 e2 e3 hnx hny h1 h2 h3
  rw [abs_le] at h1
  constructor
  · rintro ⟨hl, hu⟩
    obtain ⟨he2, he3⟩ := hrh.mp ⟨hl, by linarith⟩
    have hzero : nx * (e2 + ny * e3) = 0 := by rw [he2, he3]; ring
    exact ⟨he2, he3, by linarith⟩
  · rintro ⟨he2, he3, he1⟩
    have hzero : nx * (e2 + ny * e3) = 0 := by rw [he2, he3]; ring
    constructor <;> linarith

/-- The contribution of one traversal row of thread `d` to the count of
the unordered pair {d, s}: exactly one when the row is the source's
(y, z) row, is not the skipped row, and — for the center row — the
source cell is not to the right and the Self filter `dstId > srcId`
passes; zero otherwise. -/
theorem selfRowPairs_countP (info : CellListInfo) (pos : List Q3) (rc2 : ℚ)
    (d s : ℕ) (hds : d ≠ s) (hsn : s < pos.length)
    (hsorted : List.Pairwise (fun p q => cellIdOf info p ≤ cellIdOf info q) pos)
    (a b : Int3)
    (hb : info.encode3 b = cellIdOf info (pos.getD s ⟨0, 0, 0⟩))
    (hbx : 0 ≤ b.x ∧ b.x < info.ncells.x)
    (hby : 0 ≤ b.y ∧ b.y < info.ncells.y)
    (hbz : 0 ≤ b.z ∧ b.z < info.ncells.z)
    (hnx : 3 ≤ info.ncells.x) (hny : 3 ≤ info.ncells.y)
    (htot : info.totcells = info.ncells.x * info.ncells.y * info.ncells.z)
    (hdx : |b.x - a.x| ≤ 1)
    (hcut : withinCutoff (pos.getD s ⟨0, 0, 0⟩) (pos.getD d ⟨0, 0, 0⟩) rc2)
    (cellY cellZ : ℤ)
    (hdy2 : |b.y - cellY| ≤ 2) (hdz2 : |b.z - cellZ| ≤ 2) :
    ((selfRowPairs info pos rc2 d (pos.getD d ⟨0, 0, 0⟩) a cellY cellZ).countP
        fun p => decide (p = (d, s) ∨ p = (s, d)))
      = if (b.y = cellY ∧ b.z = cellZ) ∧ ¬(cellY = a.y ∧ cellZ > a.z)
            ∧ ((cellY = a.y ∧ cellZ = a.z) → (b.x ≤ a.x ∧ s < d))
        then 1 else 0 := by
  have henc := encode_bounds info b hbx hby hbz
  have hidb : 0 ≤ info.encode3 b ∧ info.encode3 b < info.totcells :=
    ⟨henc.1, by rw [htot]; exact henc.2⟩
  have hcs := cellStarts_iff info pos hsorted s hsn
  have habs := abs_le.mp hdx
  have hdiff := encode_diff info b a.x cellY cellZ
  unfold selfRowPairs
  by_cases hguard : 0 ≤ cellY ∧ cellY < info.ncells.y ∧ 0 ≤ cellZ ∧ cellZ < info.ncells.z
  · rw [if_pos hguard]
    by_cases hskip : cellY = a.y ∧ cellZ > a.z
    · rw [if_pos hskip, if_neg (fun hcond => hcond.2.1 hskip)]
      rfl
    · rw [if_neg hskip]
      by_cases hcen : cellY = a.y ∧ cellZ = a.z
      · rw [if_pos hcen, decide_eq_true hcen,
          computeCell_countP true _ _ _ d s hds pos rc2]
        by_cases hR : (b.y = cellY ∧ b.z = cellZ) ∧ ¬(cellY = a.y ∧ cellZ > a.z)
            ∧ ((cellY = a.y ∧ cellZ = a.z) → (b.x ≤ a.x ∧ s < d))
        · obtain ⟨⟨hbyc, hbzc⟩, -, hcenimp⟩ := hR
          obtain ⟨hxle, hsd⟩ := hcenimp hcen
          have hd2 : info.encode3 b - info.encode a.x cellY cellZ = b.x - a.x := by
            rw [hdiff, hbyc, hbzc]
            ring
          have hps : cellStarts info pos (max (info.encode a.x cellY cellZ - 1) 0) ≤ s := by
            refine (hcs _).2.mpr ?_
            rw [← hb]
            exact max_le_iff.mpr ⟨by linarith, hidb.1⟩
          have hpe : s < cellStarts info pos (info.encode a.x cellY cellZ + 1) := by
            refine (hcs _).1.mpr ?_
            rw [← hb]
            linarith
          rw [if_pos ⟨hps, hpe, hcut, fun _ => hsd⟩,
            if_pos ⟨⟨hbyc, hbzc⟩, hskip, fun _ => ⟨hxle, hsd⟩⟩]
        · rw [if_neg hR, if_neg ?_]
          rintro ⟨h1, h2, -, h4⟩
          have h1a := (hcs _).2.mp h1
          rw [← hb] at h1a
          have h2a := (hcs _).1.mp h2
          rw [← hb] at h2a
          have h1b : info.encode a.x cellY cellZ - 1 ≤ info.encode3 b :=
            le_trans (le_max_left _ _) h1a
          have hctr := (row_hit_aux_center info.ncells.x info.ncells.y
              (b.x - a.x) (b.y - cellY) (b.z - cellZ) hnx hny hdx hdy2 hdz2).mp
            ⟨by linarith, by linarith⟩
          exact hR ⟨⟨by linarith [hctr.1], by linarith [hctr.2.1]⟩, hskip,
            fun _ => ⟨by linarith [hctr.2.2], h4 rfl⟩⟩
      · rw [if_neg hcen, decide_eq_false hcen,
          computeCell_countP false _ _ _ d s hds pos rc2]
        have hrh := row_hit_aux info.ncells.x info.ncells.y
          (b.x - a.x) (b.y - cellY) (b.z - cellZ) hnx hny hdx hdy2 hdz2
        by_cases hR : (b.y = cellY ∧ b.z = cellZ) ∧ ¬(cellY = a.y ∧ cellZ > a.z)
            ∧ ((cellY = a.y ∧ cellZ = a.z) → (b.x ≤ a.x ∧ s < d))
        · obtain ⟨⟨hbyc, hbzc⟩, -, -⟩ := hR
          have hd2 : info.encode3 b - info.encode a.x cellY cellZ = b.x - a.x := by
            rw [hdiff, hbyc, hbzc]
            ring
          have hps : cellStarts info pos (max (info.encode a.x cellY cellZ - 1) 0) ≤ s := by
            refine (hcs _).2.mpr ?_
            rw [← hb]
            exact max_le_iff.mpr ⟨by linarith, hidb.1⟩
          have hpe : s < cellStarts info pos
              (min (info.encode a.x cellY cellZ + 2) info.totcells) := by
            refine (hcs _).1.mpr ?_
            rw [← hb]
            exact lt_min_iff.mpr ⟨by linarith, hidb.2⟩
          rw [if_pos ⟨hps, hpe, hcut, fun hfa => absurd hfa Bool.false_ne_true⟩,
            if_pos ⟨⟨hbyc, hbzc⟩, hskip, fun hc => absurd hc hcen⟩]
        · rw [if_neg hR, if_neg ?_]
          rintro ⟨h1, h2, -, -⟩
          have h1a := (hcs _).2.mp h1
          rw [← hb] at h1a
          have h2a := (hcs _).1.mp h2
          rw [← hb] at h2a
          have h1b : info.encode a.x cellY cellZ - 1 ≤ info.encode3 b :=
            le_trans (le_max_left _ _) h1a
          have h2b : info.encode3 b < info.encode a.x cellY cellZ + 2 :=
            lt_of_lt_of_le h2a (min_le_left _ _)
          have hmatch := hrh.mp ⟨by linarith, by linarith⟩
          exact hR ⟨⟨by linarith [hmatch.1], by linarith [hmatch.2]⟩, hskip,
            fun hc => absurd hc hcen⟩
  · rw [if_neg hguard, if_neg ?_]
    · rfl
    · rintro ⟨⟨h1, h2⟩, -, -⟩
      exact hguard ⟨h1 ▸ hby.1, h1 ▸ hby.2, h2 ▸ hbz.1, h2 ▸ hbz.2⟩

/-- Full evaluation of one thread's contribution to the unordered pair
{d, s}: the six traversal rows of destination cell `a`, each counted by
`selfRowPairs_countP`, plus the (never matching) optional self pair. -/
theorem selfThreadPairs_countP_eval (info : CellListInfo) (pos : List Q3) (rc2 : ℚ)
    (needSelf : Bool) (d s : ℕ) (hds : d ≠ s) (hsn : s < pos.length)
    (hsorted : List.Pairwise (fun p q => cellIdOf info p ≤ cellIdOf info q) pos)
    (a b : Int3)
    (ha : a = cellOf info (pos.getD d ⟨0, 0, 0⟩))
    (hb : info.encode3 b = cellIdOf info (pos.getD s ⟨0, 0, 0⟩))
    (hbx : 0 ≤ b.x ∧ b.x < info.ncells.x)
    (hby : 0 ≤ b.y ∧ b.y < info.ncells.y)
    (hbz : 0 ≤ b.z ∧ b.z < info.ncells.z)
    (hnx : 3 ≤ info.ncells.x) (hny : 3 ≤ info.ncells.y)
    (htot : info.totcells = info.ncells.x * info.ncells.y * info.ncells.z)
    (hdx : |b.x - a.x| ≤ 1) (hdy : |b.y - a.y| ≤ 1) (hdz : |b.z - a.z| ≤ 1)
    (hcut : withinCutoff (pos.getD s ⟨0, 0, 0⟩) (pos.getD d ⟨0, 0, 0⟩) rc2) :
    ((selfThreadPairs info pos rc2 needSelf d).countP
        fun p => decide (p = (d, s) ∨ p = (s, d)))
      = (if (b.y = a.y - 1 ∧ b.z = a.z - 1) ∧ ¬(a.y - 1 = a.y ∧ a.z - 1 > a.z)
              ∧ ((a.y - 1 = a.y ∧ a.z - 1 = a.z) → (b.x ≤ a.x ∧ s < d))
          then 1 else 0)
        + ((if (b.y = a.y ∧ b.z = a.z - 1) ∧ ¬(a.y = a.y ∧ a.z - 1 > a.z)
              ∧ ((a.y = a.y ∧ a.z - 1 = a.z) → (b.x ≤ a.x ∧ s < d))
          then 1 else 0)
        + ((if (b.y = a.y - 1 ∧ b.z = a.z) ∧ ¬(a.y - 1 = a.y ∧ a.z > a.z)
              ∧ ((a.y - 1 = a.y ∧ a.z = a.z) → (b.x ≤ a.x ∧ s < d))
          then 1 else 0)
        + ((if (b.y = a.y ∧ b.z = a.z) ∧ ¬(a.y = a.y ∧ a.z > a.z)
              ∧ ((a.y = a.y ∧ a.z = a.z) → (b.x ≤ a.x ∧ s < d))
          then 1 else 0)
        + ((if (b.y = a.y - 1 ∧ b.z = a.z + 1) ∧ ¬(a.y - 1 = a.y ∧ a.z + 1 > a.z)
              ∧ ((a.y - 1 = a.y ∧ a.z + 1 = a.z) → (b.x ≤ a.x ∧ s < d))
          then 1 else 0)
        + ((if (b.y = a.y ∧ b.z = a.z + 1) ∧ ¬(a.y = a.y ∧ a.z + 1 > a.z)
              ∧ ((a.y = a.y ∧ a.z + 1 = a.z) → (b.x ≤ a.x ∧ s < d))
          then 1 else 0)
        + 0))))) := by
  have hy := abs_le.mp hdy
  have hz := abs_le.mp hdz
  have hy2a : |b.y - (a.y - 1)| ≤ 2 := abs_le.mpr ⟨by linarith, by linarith⟩
  have hy2b : |b.y - a.y| ≤ 2 := abs_le.mpr ⟨by linarith, by linarith⟩
  have hz2a : |b.z - (a.z - 1)| ≤ 2 := abs_le.mpr ⟨by linarith, by linarith⟩
  have hz2b : |b.z - a.z| ≤ 2 := abs_le.mpr ⟨by linarith, by linarith⟩
  have hz2c : |b.z - (a.z + 1)| ≤ 2 := abs_le.mpr ⟨by linarith, by linarith⟩
  have htail : ((if needSelf then [(d, d)] else []).countP
      fun p => decide (p = (d, s) ∨ p = (s, d))) = 0 := by
    refine List.countP_eq_zero.mpr fun p hp => ?_
    cases needSelf with
    | false => exact absurd hp (List.not_mem_nil p)
    | true =>
        simp only [if_pos] at hp
        rw [List.mem_singleton] at hp
        subst hp
        simp only [decide_eq_true_eq]
        rintro (h | h)
        · exact hds (congrArg Prod.snd h)
        · exact hds (congrArg Prod.fst h)
  unfold selfThreadPairs
  rw [← ha]
  simp only [List.countP_append]
  rw [htail,
    selfRowPairs_countP info pos rc2 d s hds hsn hsorted a b hb hbx hby hbz hnx hny
      htot hdx hcut (a.y - 1) (a.z - 1) hy2a hz2a,
    selfRowPairs_countP info pos rc2 d s hds hsn hsorted a b hb hbx hby hbz hnx hny
      htot hdx hcut a.y (a.z - 1) hy2b hz2a,
    selfRowPairs_countP info pos rc2 d s hds hsn hsorted a b hb hbx hby hbz hnx hny
      htot hdx hcut (a.y - 1) a.z hy2a hz2b,
    selfRowPairs_countP info pos rc2 d s hds hsn hsorted a b hb hbx hby hbz hnx hny
      htot hdx hcut a.y a.z hy2b hz2b,
    selfRowPairs_countP info pos rc2 d s hds hsn hsorted a b hb hbx hby hbz hnx hny
      htot hdx hcut (a.y - 1) (a.z + 1) hy2a hz2c,
    selfRowPairs_countP info pos rc2 d s hds hsn hsorted a b hb hbx hby hbz hnx hny
      htot hdx hcut a.y (a.z + 1) hy2b hz2c]
  ring

theorem distance2_comm (a b : Q3) : distance2 a b = distance2 b a := by
  unfold distance2
  ring

/-- Neighbouring-cell closeness along one axis: if the cell size is at
least the cutoff and the two coordinates are within the cutoff, their
cells along that axis differ by at most one. -/
theorem cell_axis_close (hq C xj xi rc : ℚ) (hh : 0 < hq) (_hrc : 0 < rc)
    (hrx : rc ≤ hq) (hxx : |xj - xi| < rc) :
    |⌊1 / hq * (xj + C)⌋ - ⌊1 / hq * (xi + C)⌋| ≤ 1 := by
  have h1 : |1 / hq * (xj + C) - 1 / hq * (xi + C)| < 1 := by
    have he : 1 / hq * (xj + C) - 1 / hq * (xi + C) = (xj - xi) / hq := by
      field_simp
    rw [he, abs_div, abs_of_pos hh, div_lt_one hh]
    linarith
  have h2 := floor_diff_le_one _ _ h1
  exact abs_le.mpr ⟨by linarith [h2.2], h2.1⟩

/-- For an in-domain position the clamped cell equals the raw floor
triple, and it lies inside the grid. -/
theorem cellOf_inDomain (info : CellListInfo) (p : Q3)
    (hnx : 0 < info.ncells.x) (hny : 0 < info.ncells.y) (hnz : 0 < info.ncells.z)
    (hhx : 0 < info.h.x) (hhy : 0 < info.h.y) (hhz : 0 < info.h.z)
    (hix : info.invh.x = 1 / info.h.x) (hiy : info.invh.y = 1 / info.h.y)
    (hiz : info.invh.z = 1 / info.h.z)
    (hLx : info.localDomainSize.x = info.ncells.x * info.h.x)
    (hLy : info.localDomainSize.y = info.ncells.y * info.h.y)
    (hLz : info.localDomainSize.z = info.ncells.z * info.h.z)
    (hdx : -(info.ncells.x * info.h.x) / 2 ≤ p.x ∧ p.x < info.ncells.x * info.h.x / 2)
    (hdy : -(info.ncells.y * info.h.y) / 2 ≤ p.y ∧ p.y < info.ncells.y * info.h.y / 2)
    (hdz : -(info.ncells.z * info.h.z) / 2 ≤ p.z ∧ p.z < info.ncells.z * info.h.z / 2) :
    (cellOf info p).x = ⌊1 / info.h.x * (p.x + info.ncells.x * info.h.x / 2)⌋
      ∧ (cellOf info p).y = ⌊1 / info.h.y * (p.y + info.ncells.y * info.h.y / 2)⌋
      ∧ (cellOf info p).z = ⌊1 / info.h.z * (p.z + info.ncells.z * info.h.z / 2)⌋
      ∧ (0 ≤ (cellOf info p).x ∧ (cellOf info p).x < info.ncells.x)
      ∧ (0 ≤ (cellOf info p).y ∧ (cellOf info p).y < info.ncells.y)
      ∧ (0 ≤ (cellOf info p).z ∧ (cellOf info p).z < info.ncells.z) := by
  have bx := axis_floor_bounds info.ncells.x info.h.x p.x hnx hhx hdx.1 hdx.2
  have bY := axis_floor_bounds info.ncells.y info.h.y p.y hny hhy hdy.1 hdy.2
  have bz := axis_floor_bounds info.ncells.z info.h.z p.z hnz hhz hdz.1 hdz.2
  have hcx : (cellOf info p).x
      = ⌊1 / info.h.x * (p.x + info.ncells.x * info.h.x / 2)⌋ := by
    show min (info.ncells.x - 1)
        (max 0 ⌊info.invh.x * (p.x + info.localDomainSize.x / 2)⌋) = _
    rw [hix, hLx]
    exact clamp_eq_self _ _ bx.1 bx.2
  have hcy : (cellOf info p).y
      = ⌊1 / info.h.y * (p.y + info.ncells.y * info.h.y / 2)⌋ := by
    show min (info.ncells.y - 1)
        (max 0 ⌊info.invh.y * (p.y + info.localDomainSize.y / 2)⌋) = _
    rw [hiy, hLy]
    exact clamp_eq_self _ _ bY.1 bY.2
  have hcz : (cellOf info p).z
      = ⌊1 / info.h.z * (p.z + info.ncells.z * info.h.z / 2)⌋ := by
    show min (info.ncells.z - 1)
        (max 0 ⌊info.invh.z * (p.z + info.localDomainSize.z / 2)⌋) = _
    rw [hiz, hLz]
    exact clamp_eq_self _ _ bz.1 bz.2
  refine ⟨hcx, hcy, hcz, ?_, ?_, ?_⟩
  · rw [hcx]; exact ⟨bx.1, bx.2⟩
  · rw [hcy]; exact ⟨bY.1, bY.2⟩
  · rw [hcz]; exact ⟨bz.1, bz.2⟩

set_option maxHeartbeats 1000000 in
/-- The final per-pair count: the twelve row contributions of the two
threads (six each, in traversal order, the skipped row already zero)
sum to exactly one for neighbouring cells. -/
theorem c5_final_count (Ax Ay Az Bx By Bz : ℤ) (i j : ℕ) (hij : i ≠ j)
    (hsij1 : (By = Ay ∧ Bz = Az ∧ Bx < Ax) → j < i)
    (hsij2 : (Ay = By ∧ Az = Bz ∧ Ax < Bx) → i < j)
    (hx1 : -1 ≤ Bx - Ax ∧ Bx - Ax ≤ 1)
    (hy1 : -1 ≤ By - Ay ∧ By - Ay ≤ 1)
    (hz1 : -1 ≤ Bz - Az ∧ Bz - Az ≤ 1) :
    ((if (By = Ay - 1 ∧ Bz = Az - 1) ∧ ¬(Ay - 1 = Ay ∧ Az - 1 > Az)
          ∧ ((Ay - 1 = Ay ∧ Az - 1 = Az) → (Bx ≤ Ax ∧ j < i)) then 1 else 0)
      + ((if (By = Ay ∧ Bz = Az - 1) ∧ ¬(Ay = Ay ∧ Az - 1 > Az)
          ∧ ((Ay = Ay ∧ Az - 1 = Az) → (Bx ≤ Ax ∧ j < i)) then 1 else 0)
      + ((if (By = Ay - 1 ∧ Bz = Az) ∧ ¬(Ay - 1 = Ay ∧ Az > Az)
          ∧ ((Ay - 1 = Ay ∧ Az = Az) → (Bx ≤ Ax ∧ j < i)) then 1 else 0)
      + ((if (By = Ay ∧ Bz = Az) ∧ ¬(Ay = Ay ∧ Az > Az)
          ∧ ((Ay = Ay ∧ Az = Az) → (Bx ≤ Ax ∧ j < i)) then 1 else 0)
      + ((if (By = Ay - 1 ∧ Bz = Az + 1) ∧ ¬(Ay - 1 = Ay ∧ Az + 1 > Az)
          ∧ ((Ay - 1 = Ay ∧ Az + 1 = Az) → (Bx ≤ Ax ∧ j < i)) then 1 else 0)
      + ((if (By = Ay ∧ Bz = Az + 1) ∧ ¬(Ay = Ay ∧ Az + 1 > Az)
          ∧ ((Ay = Ay ∧ Az + 1 = Az) → (Bx ≤ Ax ∧ j < i)) then 1 else 0)
      + 0))))))
    + ((if (Ay = By - 1 ∧ Az = Bz - 1) ∧ ¬(By - 1 = By ∧ Bz - 1 > Bz)
          ∧ ((By - 1 = By ∧ Bz - 1 = Bz) → (Ax ≤ Bx ∧ i < j)) then 1 else 0)
      + ((if (Ay = By ∧ Az = Bz - 1) ∧ ¬(By = By ∧ Bz - 1 > Bz)
          ∧ ((By = By ∧ Bz - 1 = Bz) → (Ax ≤ Bx ∧ i < j)) then 1 else 0)
      + ((if (Ay = By - 1 ∧ Az = Bz) ∧ ¬(By - 1 = By ∧ Bz > Bz)
          ∧ ((By - 1 = By ∧ Bz = Bz) → (Ax ≤ Bx ∧ i < j)) then 1 else 0)
      + ((if (Ay = By ∧ Az = Bz) ∧ ¬(By = By ∧ Bz > Bz)
          ∧ ((By = By ∧ Bz = Bz) → (Ax ≤ Bx ∧ i < j)) then 1 else 0)
      + ((if (Ay = By - 1 ∧ Az = Bz + 1) ∧ ¬(By - 1 = By ∧ Bz + 1 > Bz)
          ∧ ((By - 1 = By ∧ Bz + 1 = Bz) → (Ax ≤ Bx ∧ i < j)) then 1 else 0)
      + ((if (Ay = By ∧ Az = Bz + 1) ∧ ¬(By = By ∧ Bz + 1 > Bz)
          ∧ ((By = By ∧ Bz + 1 = Bz) → (Ax ≤ Bx ∧ i < j)) then 1 else 0)
      + 0))))))
    = 1 := by
  have e1 : ((By = Ay - 1 ∧ Bz = Az - 1) ∧ ¬(Ay - 1 = Ay ∧ Az - 1 > Az)
      ∧ ((Ay - 1 = Ay ∧ Az - 1 = Az) → (Bx ≤ Ax ∧ j < i)))
      ↔ (By = Ay - 1 ∧ Bz = Az - 1) := by omega
  have e2 : ((By = Ay ∧ Bz = Az - 1) ∧ ¬(Ay = Ay ∧ Az - 1 > Az)
      ∧ ((Ay = Ay ∧ Az - 1 = Az) → (Bx ≤ Ax ∧ j < i)))
      ↔ (By = Ay ∧ Bz = Az - 1) := by omega
  have e3 : ((By = Ay - 1 ∧ Bz = Az) ∧ ¬(Ay - 1 = Ay ∧ Az > Az)
      ∧ ((Ay - 1 = Ay ∧ Az = Az) → (Bx ≤ Ax ∧ j < i)))
      ↔ (By = Ay - 1 ∧ Bz = Az) := by omega
  have e4 : ((By = Ay ∧ Bz = Az) ∧ ¬(Ay = Ay ∧ Az > Az)
      ∧ ((Ay = Ay ∧ Az = Az) → (Bx ≤ Ax ∧ j < i)))
      ↔ (By = Ay ∧ Bz = Az ∧ Bx ≤ Ax ∧ j < i) := by
    constructor
    · rintro ⟨⟨h1, h2⟩, -, h3⟩
      obtain ⟨h4, h5⟩ := h3 ⟨rfl, rfl⟩
      exact ⟨h1, h2, h4, h5⟩
    · rintro ⟨h1, h2, h3, h4⟩
      exact ⟨⟨h1, h2⟩, by omega, fun _ => ⟨h3, h4⟩⟩
  have e5 : ((By = Ay - 1 ∧ Bz = Az + 1) ∧ ¬(Ay - 1 = Ay ∧ Az + 1 > Az)
      ∧ ((Ay - 1 = Ay ∧ Az + 1 = Az) → (Bx ≤ Ax ∧ j < i)))
      ↔ (By = Ay - 1 ∧ Bz = Az + 1) := by omega
  have e6 : (if ((By = Ay ∧ Bz = Az + 1) ∧ ¬(Ay = Ay ∧ Az + 1 > Az)
      ∧ ((Ay = Ay ∧ Az + 1 = Az) → (Bx ≤ Ax ∧ j < i))) then (1 : ℕ) else 0)
      = 0 := by
    rw [if_neg]
    rintro ⟨-, h2, -⟩
    exact h2 ⟨rfl, by omega⟩
  have f1 : ((Ay = By - 1 ∧ Az = Bz - 1) ∧ ¬(By - 1 = By ∧ Bz - 1 > Bz)
      ∧ ((By - 1 = By ∧ Bz - 1 = Bz) → (Ax ≤ Bx ∧ i < j)))
      ↔ (Ay = By - 1 ∧ Az = Bz - 1) := by omega
  have f2 : ((Ay = By ∧ Az = Bz - 1) ∧ ¬(By = By ∧ Bz - 1 > Bz)
      ∧ ((By = By ∧ Bz - 1 = Bz) → (Ax ≤ Bx ∧ i < j)))
      ↔ (Ay = By ∧ Az = Bz - 1) := by omega
  have f3 : ((Ay = By - 1 ∧ Az = Bz) ∧ ¬(By - 1 = By ∧ Bz > Bz)
      ∧ ((By - 1 = By ∧ Bz = Bz) → (Ax ≤ Bx ∧ i < j)))
      ↔ (Ay = By - 1 ∧ Az = Bz) := by omega
  have f4 : ((Ay = By ∧ Az = Bz) ∧ ¬(By = By ∧ Bz > Bz)
      ∧ ((By = By ∧ Bz = Bz) → (Ax ≤ Bx ∧ i < j)))
      ↔ (Ay = By ∧ Az = Bz ∧ Ax ≤ Bx ∧ i < j) := by
    constructor
    · rintro ⟨⟨h1, h2⟩, -, h3⟩
      obtain ⟨h4, h5⟩ := h3 ⟨rfl, rfl⟩
      exact ⟨h1, h2, h4, h5⟩
    · rintro ⟨h1, h2, h3, h4⟩
      exact ⟨⟨h1, h2⟩, by omega, fun _ => ⟨h3, h4⟩⟩
  have f5 : ((Ay = By - 1 ∧ Az = Bz + 1) ∧ ¬(By - 1 = By ∧ Bz + 1 > Bz)
      ∧ ((By - 1 = By ∧ Bz + 1 = Bz) → (Ax ≤ Bx ∧ i < j)))
      ↔ (Ay = By - 1 ∧ Az = Bz + 1) := by omega
  have f6 : (if ((Ay = By ∧ Az = Bz + 1) ∧ ¬(By = By ∧ Bz + 1 > Bz)
      ∧ ((By = By ∧ Bz + 1 = Bz) → (Ax ≤ Bx ∧ i < j))) then (1 : ℕ) else 0)
      = 0 := by
    rw [if_neg]
    rintro ⟨-, h2, -⟩
    exact h2 ⟨rfl, by omega⟩
  rw [if_congr e1 rfl rfl, if_congr e2 rfl rfl, if_congr e3 rfl rfl,
    if_congr e4 rfl rfl, if_congr e5 rfl rfl, e6,
    if_congr f1 rfl rfl, if_congr f2 rfl rfl, if_congr f3 rfl rfl,
    if_congr f4 rfl rfl, if_congr f5 rfl rfl, f6]
  have hdy : By - Ay = -1 ∨ By - Ay = 0 ∨ By - Ay = 1 := by omega
  have hdz : Bz - Az = -1 ∨ Bz - Az = 0 ∨ Bz - Az = 1 := by omega
  rcases hdy with hdy | hdy | hdy <;> rcases hdz with hdz | hdz | hdz
  · rw [if_pos (show By = Ay - 1 ∧ Bz = Az - 1 by omega),
        if_neg (show ¬(By = Ay ∧ Bz = Az - 1) by omega),
        if_neg (show ¬(By = Ay - 1 ∧ Bz = Az) by omega),
        if_neg (show ¬(By = Ay ∧ Bz = Az ∧ Bx ≤ Ax ∧ j < i) by omega),
        if_neg (show ¬(By = Ay - 1 ∧ Bz = Az + 1) by omega),
        if_neg (show ¬(Ay = By - 1 ∧ Az = Bz - 1) by omega),
        if_neg (show ¬(Ay = By ∧ Az = Bz - 1) by omega),
        if_neg (show ¬(Ay = By - 1 ∧ Az = Bz) by omega),
        if_neg (show ¬(Ay = By ∧ Az = Bz ∧ Ax ≤ Bx ∧ i < j) by omega),
        if_neg (show ¬(Ay = By - 1 ∧ Az = Bz + 1) by omega)]
  · rw [if_neg (show ¬(By = Ay - 1 ∧ Bz = Az - 1) by omega),
        if_neg (show ¬(By = Ay ∧ Bz = Az - 1) by omega),
        if_pos (show By = Ay - 1 ∧ Bz = Az by omega),
        if_neg (show ¬(By = Ay ∧ Bz = Az ∧ Bx ≤ Ax ∧ j < i) by omega),
        if_neg (show ¬(By = Ay - 1 ∧ Bz = Az + 1) by omega),
        if_neg (show ¬(Ay = By - 1 ∧ Az = Bz - 1) by omega),
        if_neg (show ¬(Ay = By ∧ Az = Bz - 1) by omega),
        if_neg (show ¬(Ay = By - 1 ∧ Az = Bz) by omega),
        if_neg (show ¬(Ay = By ∧ Az = Bz ∧ Ax ≤ Bx ∧ i < j) by omega),
        if_neg (show ¬(Ay = By - 1 ∧ Az = Bz + 1) by omega)]
  · rw [if_neg (show ¬(By = Ay - 1 ∧ Bz = Az - 1) by omega),
        if_neg (show ¬(By = Ay ∧ Bz = Az - 1) by omega),
        if_neg (show ¬(By = Ay - 1 ∧ Bz = Az) by omega),
        if_neg (show ¬(By = Ay ∧ Bz = Az ∧ Bx ≤ Ax ∧ j < i) by omega),
        if_pos (show By = Ay - 1 ∧ Bz = Az + 1 by omega),
        if_neg (show ¬(Ay = By - 1 ∧ Az = Bz - 1) by omega),
        if_neg (show ¬(Ay = By ∧ Az = Bz - 1) by omega),
        if_neg (show ¬(Ay = By - 1 ∧ Az = Bz) by omega),
        if_neg (show ¬(Ay = By ∧ Az = Bz ∧ Ax ≤ Bx ∧ i < j) by omega),
        if_neg (show ¬(Ay = By - 1 ∧ Az = Bz + 1) by omega)]
  · rw [if_neg (show ¬(By = Ay - 1 ∧ Bz = Az - 1) by omega),
        if_pos (show By = Ay ∧ Bz = Az - 1 by omega),
        if_neg (show ¬(By = Ay - 1 ∧ Bz = Az) by omega),
        if_neg (show ¬(By = Ay ∧ Bz = Az ∧ Bx ≤ Ax ∧ j < i) by omega),
        if_neg (show ¬(By = Ay - 1 ∧ Bz = Az + 1) by omega),
        if_neg (show ¬(Ay = By - 1 ∧ Az = Bz - 1) by omega),
        if_neg (show ¬(Ay = By ∧ Az = Bz - 1) by omega),
        if_neg (show ¬(Ay = By - 1 ∧ Az = Bz) by omega),
        if_neg (show ¬(Ay = By ∧ Az = Bz ∧ Ax ≤ Bx ∧ i < j) by omega),
        if_neg (show ¬(Ay = By - 1 ∧ Az = Bz + 1) by omega)]
  · rcases lt_trichotomy Bx Ax with hxc | hxc | hxc
    · have hji : j < i := hsij1 ⟨by omega, by omega, hxc⟩
      rw [if_neg (show ¬(By = Ay - 1 ∧ Bz = Az - 1) by omega),
          if_neg (show ¬(By = Ay ∧ Bz = Az - 1) by omega),
          if_neg (show ¬(By = Ay - 1 ∧ Bz = Az) by omega),
          if_pos (show By = Ay ∧ Bz = Az ∧ Bx ≤ Ax ∧ j < i by omega),
          if_neg (show ¬(By = Ay - 1 ∧ Bz = Az + 1) by omega),
          if_neg (show ¬(Ay = By - 1 ∧ Az = Bz - 1) by omega),
          if_neg (show ¬(Ay = By ∧ Az = Bz - 1) by omega),
          if_neg (show ¬(Ay = By - 1 ∧ Az = Bz) by omega),
          if_neg (show ¬(Ay = By ∧ Az = Bz ∧ Ax ≤ Bx ∧ i < j) by omega),
          if_neg (show ¬(Ay = By - 1 ∧ Az = Bz + 1) by omega)]
    · rcases Nat.lt_or_ge i j with hlt | hge
      · rw [if_neg (show ¬(By = Ay - 1 ∧ Bz = Az - 1) by omega),
            if_neg (show ¬(By = Ay ∧ Bz = Az - 1) by omega),
            if_neg (show ¬(By = Ay - 1 ∧ Bz = Az) by omega),
            if_neg (show ¬(By = Ay ∧ Bz = Az ∧ Bx ≤ Ax ∧ j < i) by omega),
            if_neg (show ¬(By = Ay - 1 ∧ Bz = Az + 1) by omega),
            if_neg (show ¬(Ay = By - 1 ∧ Az = Bz - 1) by omega),
            if_neg (show ¬(Ay = By ∧ Az = Bz - 1) by omega),
            if_neg (show ¬(Ay = By - 1 ∧ Az = Bz) by omega),
            if_pos (show Ay = By ∧ Az = Bz ∧ Ax ≤ Bx ∧ i < j by omega),
            if_neg (show ¬(Ay = By - 1 ∧ Az = Bz + 1) by omega)]
      · have hji : j < i := by omega
        rw [if_neg (show ¬(By = Ay - 1 ∧ Bz = Az - 1) by omega),
            if_neg (show ¬(By = Ay ∧ Bz = Az - 1) by omega),
            if_neg (show ¬(By = Ay - 1 ∧ Bz = Az) by omega),
            if_pos (show By = Ay ∧ Bz = Az ∧ Bx ≤ Ax ∧ j < i by omega),
            if_neg (show ¬(By = Ay - 1 ∧ Bz = Az + 1) by omega),
            if_neg (show ¬(Ay = By - 1 ∧ Az = Bz - 1) by omega),
            if_neg (show ¬(Ay = By ∧ Az = Bz - 1) by omega),
            if_neg (show ¬(Ay = By - 1 ∧ Az = Bz) by omega),
            if_neg (show ¬(Ay = By ∧ Az = Bz ∧ Ax ≤ Bx ∧ i < j) by omega),
            if_neg (show ¬(Ay = By - 1 ∧ Az = Bz + 1) by omega)]
    · have hlt : i < j := hsij2 ⟨by omega, by omega, hxc⟩
      rw [if_neg (show ¬(By = Ay - 1 ∧ Bz = Az - 1) by omega),
          if_neg (show ¬(By = Ay ∧ Bz = Az - 1) by omega),
          if_neg (show ¬(By = Ay - 1 ∧ Bz = Az) by omega),
          if_neg (show ¬(By = Ay ∧ Bz = Az ∧ Bx ≤ Ax ∧ j < i) by omega),
          if_neg (show ¬(By = Ay - 1 ∧ Bz = Az + 1) by omega),
          if_neg (show ¬(Ay = By - 1 ∧ Az = Bz - 1) by omega),
          if_neg (show ¬(Ay = By ∧ Az = Bz - 1) by omega),
          if_neg (show ¬(Ay = By - 1 ∧ Az = Bz) by omega),
          if_pos (show Ay = By ∧ Az = Bz ∧ Ax ≤ Bx ∧ i < j by omega),
          if_neg (show ¬(Ay = By - 1 ∧ Az = Bz + 1) by omega)]
  · rw [if_neg (show ¬(By = Ay - 1 ∧ Bz = Az - 1) by omega),
        if_neg (show ¬(By = Ay ∧ Bz = Az - 1) by omega),
        if_neg (show ¬(By = Ay - 1 ∧ Bz = Az) by omega),
        if_neg (show ¬(By = Ay ∧ Bz = Az ∧ Bx ≤ Ax ∧ j < i) by omega),
        if_neg (show ¬(By = Ay - 1 ∧ Bz = Az + 1) by omega),
        if_neg (show ¬(Ay = By - 1 ∧ Az = Bz - 1) by omega),
        if_pos (show Ay = By ∧ Az = Bz - 1 by omega),
        if_neg (show ¬(Ay = By - 1 ∧ Az = Bz) by omega),
        if_neg (show ¬(Ay = By ∧ Az = Bz ∧ Ax ≤ Bx ∧ i < j) by omega),
        if_neg (show ¬(Ay = By - 1 ∧ Az = Bz + 1) by omega)]
  · rw [if_neg (show ¬(By = Ay - 1 ∧ Bz = Az - 1) by omega),
        if_neg (show ¬(By = Ay ∧ Bz = Az - 1) by omega),
        if_neg (show ¬(By = Ay - 1 ∧ Bz = Az) by omega),
        if_neg (show ¬(By = Ay ∧ Bz = Az ∧ Bx ≤ Ax ∧ j < i) by omega),
        if_neg (show ¬(By = Ay - 1 ∧ Bz = Az + 1) by omega),
        if_neg (show ¬(Ay = By - 1 ∧ Az = Bz - 1) by omega),
        if_neg (show ¬(Ay = By ∧ Az = Bz - 1) by omega),
        if_neg (show ¬(Ay = By - 1 ∧ Az = Bz) by omega),
        if_neg (show ¬(Ay = By ∧ Az = Bz ∧ Ax ≤ Bx ∧ i < j) by omega),
        if_pos (show Ay = By - 1 ∧ Az = Bz + 1 by omega)]
  · rw [if_neg (show ¬(By = Ay - 1 ∧ Bz = Az - 1) by omega),
        if_neg (show ¬(By = Ay ∧ Bz = Az - 1) by omega),
        if_neg (show ¬(By = Ay - 1 ∧ Bz = Az) by omega),
        if_neg (show ¬(By = Ay ∧ Bz = Az ∧ Bx ≤ Ax ∧ j < i) by omega),
        if_neg (show ¬(By = Ay - 1 ∧ Bz = Az + 1) by omega),
        if_neg (show ¬(Ay = By - 1 ∧ Az = Bz - 1) by omega),
        if_neg (show ¬(Ay = By ∧ Az = Bz - 1) by omega),
        if_pos (show Ay = By - 1 ∧ Az = Bz by omega),
        if_neg (show ¬(Ay = By ∧ Az = Bz ∧ Ax ≤ Bx ∧ i < j) by omega),
        if_neg (show ¬(Ay = By - 1 ∧ Az = Bz + 1) by omega)]
  · rw [if_neg (show ¬(By = Ay - 1 ∧ Bz = Az - 1) by omega),
        if_neg (show ¬(By = Ay ∧ Bz = Az - 1) by omega),
        if_neg (show ¬(By = Ay - 1 ∧ Bz = Az) by omega),
        if_neg (show ¬(By = Ay ∧ Bz = Az ∧ Bx ≤ Ax ∧ j < i) by omega),
        if_neg (show ¬(By = Ay - 1 ∧ Bz = Az + 1) by omega),
        if_pos (show Ay = By - 1 ∧ Az = Bz - 1 by omega),
        if_neg (show ¬(Ay = By ∧ Az = Bz - 1) by omega),
        if_neg (show ¬(Ay = By - 1 ∧ Az = Bz) by omega),
        if_neg (show ¬(Ay = By ∧ Az = Bz ∧ Ax ≤ Bx ∧ i < j) by omega),
        if_neg (show ¬(Ay = By - 1 ∧ Az = Bz + 1) by omega)]

set_option maxHeartbeats 4000000 in
/-- C5 (amended): on a grid with at least 3 cells along every axis, cell
size at least the cutoff, positions inside the local domain and sorted by
encoded cell id (as `CellList::build` produces), `computeSelfInteractions`
processes every unordered pair of distinct particles within the cutoff
EXACTLY once: the pair is handled by exactly one of the two particle
threads, on exactly one traversal row, with the Self filter
`dstId > srcId` deciding the owner inside the central cell.  (The
unamended claim, for every grid, is refuted by
`computeSelfInteractions_processes_pair_twice`: with fewer than 3 cells
along an axis the wrapped row intervals double-process a pair.) -/
theorem computeSelfInteractions_pair_exactly_once
    (info : CellListInfo) (pos : List Q3) (rc rc2 : ℚ) (needSelf : Bool)
    (hnx : 3 ≤ info.ncells.x) (hny : 3 ≤ info.ncells.y) (hnz : 3 ≤ info.ncells.z)
    (hhx : 0 < info.h.x) (hhy : 0 < info.h.y) (hhz : 0 < info.h.z)
    (hix : info.invh.x = 1 / info.h.x) (hiy : info.invh.y = 1 / info.h.y)
    (hiz : info.invh.z = 1 / info.h.z)
    (hLx : info.localDomainSize.x = info.ncells.x * info.h.x)
    (hLy : info.localDomainSize.y = info.ncells.y * info.h.y)
    (hLz : info.localDomainSize.z = info.ncells.z * info.h.z)
    (htot : info.totcells = info.ncells.x * info.ncells.y * info.ncells.z)
    (hrc : 0 < rc) (hrcx : rc ≤ info.h.x) (hrcy : rc ≤ info.h.y)
    (hrcz : rc ≤ info.h.z) (hrc2 : rc2 = rc * rc)
    (hdom : ∀ p ∈ pos,
      (-(info.ncells.x * info.h.x) / 2 ≤ p.x ∧ p.x < info.ncells.x * info.h.x / 2)
      ∧ (-(info.ncells.y * info.h.y) / 2 ≤ p.y ∧ p.y < info.ncells.y * info.h.y / 2)
      ∧ (-(info.ncells.z * info.h.z) / 2 ≤ p.z ∧ p.z < info.ncells.z * info.h.z / 2))
    (hsorted : List.Pairwise (fun p q => cellIdOf info p ≤ cellIdOf info q) pos)
    (i j : ℕ) (hij : i ≠ j) (hin : i < pos.length) (hjn : j < pos.length)
    (hcut : distance2 (pos.getD i ⟨0, 0, 0⟩) (pos.getD j ⟨0, 0, 0⟩) < rc2) :
    pairCount (computeSelfInteractions info pos rc2 needSelf) i j = 1 := by
  have hnx0 : (0 : ℤ) < info.ncells.x := by omega
  have hny0 : (0 : ℤ) < info.ncells.y := by omega
  have hnz0 : (0 : ℤ) < info.ncells.z := by omega
  have hmi := getD_lt_mem pos i ⟨0, 0, 0⟩ hin
  have hmj := getD_lt_mem pos j ⟨0, 0, 0⟩ hjn
  obtain ⟨hdix, hdiy, hdiz⟩ := hdom _ hmi
  obtain ⟨hdjx, hdjy, hdjz⟩ := hdom _ hmj
  obtain ⟨hAx, hAy, hAz, hAbx, hAby, hAbz⟩ :=
    cellOf_inDomain info (pos.getD i ⟨0, 0, 0⟩) hnx0 hny0 hnz0 hhx hhy hhz
      hix hiy hiz hLx hLy hLz hdix hdiy hdiz
  obtain ⟨hBx, hBy, hBz, hBbx, hBby, hBbz⟩ :=
    cellOf_inDomain info (pos.getD j ⟨0, 0, 0⟩) hnx0 hny0 hnz0 hhx hhy hhz
      hix hiy hiz hLx hLy hLz hdjx hdjy hdjz
  have habs := abs_lt_of_sq_bound
    ((pos.getD i ⟨0, 0, 0⟩).x - (pos.getD j ⟨0, 0, 0⟩).x)
    ((pos.getD i ⟨0, 0, 0⟩).y - (pos.getD j ⟨0, 0, 0⟩).y)
    ((pos.getD i ⟨0, 0, 0⟩).z - (pos.getD j ⟨0, 0, 0⟩).z) rc hrc
    (by rw [← hrc2]; exact hcut)
  have hxji : |(pos.getD j ⟨0, 0, 0⟩).x - (pos.getD i ⟨0, 0, 0⟩).x| < rc := by
    rw [abs_sub_comm]; exact habs.1
  have hyji : |(pos.getD j ⟨0, 0, 0⟩).y - (pos.getD i ⟨0, 0, 0⟩).y| < rc := by
    rw [abs_sub_comm]; exact habs.2.1
  have hzji : |(pos.getD j ⟨0, 0, 0⟩).z - (pos.getD i ⟨0, 0, 0⟩).z| < rc := by
    rw [abs_sub_comm]; exact habs.2.2
  have hdxBA : |(cellOf info (pos.getD j ⟨0, 0, 0⟩)).x
      - (cellOf info (pos.getD i ⟨0, 0, 0⟩)).x| ≤ 1 := by
    rw [hBx, hAx]
    exact cell_axis_close info.h.x _ _ _ rc hhx hrc hrcx hxji
  have hdyBA : |(cellOf info (pos.getD j ⟨0, 0, 0⟩)).y
      - (cellOf info (pos.getD i ⟨0, 0, 0⟩)).y| ≤ 1 := by
    rw [hBy, hAy]
    exact cell_axis_close info.h.y _ _ _ rc hhy hrc hrcy hyji
  have hdzBA : |(cellOf info (pos.getD j ⟨0, 0, 0⟩)).z
      - (cellOf info (pos.getD i ⟨0, 0, 0⟩)).z| ≤ 1 := by
    rw [hBz, hAz]
    exact cell_axis_close info.h.z _ _ _ rc hhz hrc hrcz hzji
  have hdxAB : |(cellOf info (pos.getD i ⟨0, 0, 0⟩)).x
      - (cellOf info (pos.getD j ⟨0, 0, 0⟩)).x| ≤ 1 := by
    rw [abs_sub_comm]; exact hdxBA
  have hdyAB : |(cellOf info (pos.getD i ⟨0, 0, 0⟩)).y
      - (cellOf info (pos.getD j ⟨0, 0, 0⟩)).y| ≤ 1 := by
    rw [abs_sub_comm]; exact hdyBA
  have hdzAB : |(cellOf info (pos.getD i ⟨0, 0, 0⟩)).z
      - (cellOf info (pos.getD j ⟨0, 0, 0⟩)).z| ≤ 1 := by
    rw [abs_sub_comm]; exact hdzBA
  have hcutij : withinCutoff (pos.getD i ⟨0, 0, 0⟩) (pos.getD j ⟨0, 0, 0⟩) rc2 := hcut
  have hcutji : withinCutoff (pos.getD j ⟨0, 0, 0⟩) (pos.getD i ⟨0, 0, 0⟩) rc2 := by
    show distance2 (pos.getD j ⟨0, 0, 0⟩) (pos.getD i ⟨0, 0, 0⟩) < rc2
    rw [distance2_comm]
    exact hcut
  have hsij1 : ((cellOf info (pos.getD j ⟨0, 0, 0⟩)).y
        = (cellOf info (pos.getD i ⟨0, 0, 0⟩)).y
      ∧ (cellOf info (pos.getD j ⟨0, 0, 0⟩)).z
        = (cellOf info (pos.getD i ⟨0, 0, 0⟩)).z
      ∧ (cellOf info (pos.getD j ⟨0, 0, 0⟩)).x
        < (cellOf info (pos.getD i ⟨0, 0, 0⟩)).x) → j < i := by
    rintro ⟨h1, h2, h3⟩
    refine sorted_getD_lt pos (cellIdOf info) hsorted i j hin hjn ?_
    have hd := encode_diff info (cellOf info (pos.getD j ⟨0, 0, 0⟩))
      (cellOf info (pos.getD i ⟨0, 0, 0⟩)).x (cellOf info (pos.getD i ⟨0, 0, 0⟩)).y
      (cellOf info (pos.getD i ⟨0, 0, 0⟩)).z
    rw [h1, h2] at hd
    have h0 : cellIdOf info (pos.getD j ⟨0, 0, 0⟩)
        - cellIdOf info (pos.getD i ⟨0, 0, 0⟩)
        = (cellOf info (pos.getD j ⟨0, 0, 0⟩)).x
          - (cellOf info (pos.getD i ⟨0, 0, 0⟩)).x := by
      show info.encode3 (cellOf info (pos.getD j ⟨0, 0, 0⟩))
          - info.encode3 (cellOf info (pos.getD i ⟨0, 0, 0⟩)) = _
      rw [show info.encode3 (cellOf info (pos.getD i ⟨0, 0, 0⟩))
          = info.encode (cellOf info (pos.getD i ⟨0, 0, 0⟩)).x
            (cellOf info (pos.getD i ⟨0, 0, 0⟩)).y
            (cellOf info (pos.getD i ⟨0, 0, 0⟩)).z from rfl, hd]
      ring
    omega
  have hsij2 : ((cellOf info (pos.getD i ⟨0, 0, 0⟩)).y
        = (cellOf info (pos.getD j ⟨0, 0, 0⟩)).y
      ∧ (cellOf info (pos.getD i ⟨0, 0, 0⟩)).z
        = (cellOf info (pos.getD j ⟨0, 0, 0⟩)).z
      ∧ (cellOf info (pos.getD i ⟨0, 0, 0⟩)).x
        < (cellOf info (pos.getD j ⟨0, 0, 0⟩)).x) → i < j := by
    rintro ⟨h1, h2, h3⟩
    refine sorted_getD_lt pos (cellIdOf info) hsorted j i hjn hin ?_
    have hd := encode_diff info (cellOf info (pos.getD i ⟨0, 0, 0⟩))
      (cellOf info (pos.getD j ⟨0, 0, 0⟩)).x (cellOf info (pos.getD j ⟨0, 0, 0⟩)).y
      (cellOf info (pos.getD j ⟨0, 0, 0⟩)).z
    rw [h1, h2] at hd
    have h0 : cellIdOf info (pos.getD i ⟨0, 0, 0⟩)
        - cellIdOf info (pos.getD j ⟨0, 0, 0⟩)
        = (cellOf info (pos.getD i ⟨0, 0, 0⟩)).x
          - (cellOf info (pos.getD j ⟨0, 0, 0⟩)).x := by
      show info.encode3 (cellOf info (pos.getD i ⟨0, 0, 0⟩))
          - info.encode3 (cellOf info (pos.getD j ⟨0, 0, 0⟩)) = _
      rw [show info.encode3 (cellOf info (pos.getD j ⟨0, 0, 0⟩))
          = info.encode (cellOf info (pos.getD j ⟨0, 0, 0⟩)).x
            (cellOf info (pos.getD j ⟨0, 0, 0⟩)).y
            (cellOf info (pos.getD j ⟨0, 0, 0⟩)).z from rfl, hd]
      ring
    omega
  have hx1 := abs_le.mp hdxBA
  have hy1 := abs_le.mp hdyBA
  have hz1 := abs_le.mp hdzBA
  unfold pairCount computeSelfInteractions
  rw [countP_flatMap]
  rw [sum_map_range_pair _ pos.length i j hij hin hjn
    (fun k hki hkj => selfThreadPairs_countP_ne info pos rc2 needSelf i j k hki hkj)]
  have hswap : ((selfThreadPairs info pos rc2 needSelf j).countP
        fun p => decide (p = (i, j) ∨ p = (j, i)))
      = ((selfThreadPairs info pos rc2 needSelf j).countP
        fun p => decide (p = (j, i) ∨ p = (i, j))) :=
    countP_ext _ _ _ (fun p => decide_eq_decide.mpr or_comm)
  rw [hswap]
  rw [selfThreadPairs_countP_eval info pos rc2 needSelf i j hij hjn hsorted
    (cellOf info (pos.getD i ⟨0, 0, 0⟩)) (cellOf info (pos.getD j ⟨0, 0, 0⟩))
    rfl rfl hBbx hBby hBbz hnx hny htot hdxBA hdyBA hdzBA hcutji]
  rw [selfThreadPairs_countP_eval info pos rc2 needSelf j i (Ne.symm hij) hin hsorted
    (cellOf info (pos.getD j ⟨0, 0, 0⟩)) (cellOf info (pos.getD i ⟨0, 0, 0⟩))
    rfl rfl hAbx hAby hAbz hnx hny htot hdxAB hdyAB hdzAB hcutij]
  exact c5_final_count (cellOf info (pos.getD i ⟨0, 0, 0⟩)).x
    (cellOf info (pos.getD i ⟨0, 0, 0⟩)).y (cellOf info (pos.getD i ⟨0, 0, 0⟩)).z
    (cellOf info (pos.getD j ⟨0, 0, 0⟩)).x (cellOf info (pos.getD j ⟨0, 0, 0⟩)).y
    (cellOf info (pos.getD j ⟨0, 0, 0⟩)).z i j hij hsij1 hsij2 hx1 hy1 hz1

/-- A grid with only 2 cells along x: ncells (2,3,3), unit cells, so the
row interval `[mid-1, mid+2)` of a row wraps into neighbouring rows. -/
def infoTwo : CellListInfo :=
  ⟨⟨2, 3, 3⟩, 18, ⟨2, 3, 3⟩, ⟨1, 1, 1⟩, ⟨1, 1, 1⟩, 1⟩

/-- Two particles closer than the cutoff 1, in cells 1 = (1,0,0) and
8 = (0,1,1), stored in cell-id order. -/
def posTwo : List Q3 :=
  [⟨1/20, -11/20, -11/20⟩, ⟨-1/20, -9/20, -9/20⟩]

/-- A 3×3×3 grid of unit cells. -/
def infoThree : CellListInfo :=
  ⟨⟨3, 3, 3⟩, 27, ⟨3, 3, 3⟩, ⟨1, 1, 1⟩, ⟨1, 1, 1⟩, 1⟩

/-- Two particles closer than the cutoff 1, in cells 0 = (0,0,0) and
13 = (1,1,1), stored in cell-id order. -/
def posThree : List Q3 :=
  [⟨-11/20, -11/20, -11/20⟩, ⟨-9/20, -9/20, -9/20⟩]

/-- C5 counterexample: on the 2×3×3 grid the within-cutoff pair {0, 1}
(sorted, in-domain) is processed TWICE by `computeSelfInteractions`:
the destination thread's rows (0,0) and (1,0) both cover the source's
cell id 1, because with ncells.x = 2 the row interval `[mid-1, mid+2)`
wraps across rows. -/
theorem computeSelfInteractions_processes_pair_twice :
    withinCutoff (posTwo.getD 0 ⟨0, 0, 0⟩) (posTwo.getD 1 ⟨0, 0, 0⟩) 1
      ∧ List.Pairwise (fun p q => cellIdOf infoTwo p ≤ cellIdOf infoTwo q) posTwo
      ∧ pairCount (computeSelfInteractions infoTwo posTwo 1 false) 1 0 = 2 := by
  have hg0 : posTwo.getD 0 ⟨0, 0, 0⟩ = ⟨1/20, -11/20, -11/20⟩ := rfl
  have hg1 : posTwo.getD 1 ⟨0, 0, 0⟩ = ⟨-1/20, -9/20, -9/20⟩ := rfl
  have hfx0 : ⌊(1 : ℚ) * (1/20 + 2 / 2)⌋ = 1 := by norm_num [Int.floor_eq_iff]
  have hfy0 : ⌊(1 : ℚ) * (-11/20 + 3 / 2)⌋ = 0 := by norm_num [Int.floor_eq_iff]
  have hfx1 : ⌊(1 : ℚ) * (-1/20 + 2 / 2)⌋ = 0 := by norm_num [Int.floor_eq_iff]
  have hfy1 : ⌊(1 : ℚ) * (-9/20 + 3 / 2)⌋ = 1 := by norm_num [Int.floor_eq_iff]
  have hc0 : cellOf infoTwo ⟨1/20, -11/20, -11/20⟩ = ⟨1, 0, 0⟩ := by
    show (⟨min (2 - 1) (max 0 ⌊(1 : ℚ) * (1/20 + 2 / 2)⌋),
           min (3 - 1) (max 0 ⌊(1 : ℚ) * (-11/20 + 3 / 2)⌋),
           min (3 - 1) (max 0 ⌊(1 : ℚ) * (-11/20 + 3 / 2)⌋)⟩ : Int3) = ⟨1, 0, 0⟩
    rw [hfx0, hfy0]
    decide
  have hc1 : cellOf infoTwo ⟨-1/20, -9/20, -9/20⟩ = ⟨0, 1, 1⟩ := by
    show (⟨min (2 - 1) (max 0 ⌊(1 : ℚ) * (-1/20 + 2 / 2)⌋),
           min (3 - 1) (max 0 ⌊(1 : ℚ) * (-9/20 + 3 / 2)⌋),
           min (3 - 1) (max 0 ⌊(1 : ℚ) * (-9/20 + 3 / 2)⌋)⟩ : Int3) = ⟨0, 1, 1⟩
    rw [hfx1, hfy1]
    decide
  have hid0 : cellIdOf infoTwo ⟨1/20, -11/20, -11/20⟩ = 1 := by
    unfold cellIdOf
    rw [hc0]
    decide
  have hid1 : cellIdOf infoTwo ⟨-1/20, -9/20, -9/20⟩ = 8 := by
    unfold cellIdOf
    rw [hc1]
    decide
  have hcs : ∀ c : ℤ, cellStarts infoTwo posTwo c
      = (if 8 < c then 1 else 0) + (if 1 < c then 1 else 0) := by
    intro c
    show List.countP _ [(⟨1/20, -11/20, -11/20⟩ : Q3), ⟨-1/20, -9/20, -9/20⟩] = _
    rw [List.countP_cons, List.countP_cons, List.countP_nil, hid0, hid1]
    simp [decide_eq_true_eq]
  have hcs0 : cellStarts infoTwo posTwo 0 = 0 := by rw [hcs]; norm_num
  have hcs1 : cellStarts infoTwo posTwo 1 = 0 := by rw [hcs]; norm_num
  have hcs2 : cellStarts infoTwo posTwo 2 = 1 := by rw [hcs]; norm_num
  have hcs4 : cellStarts infoTwo posTwo 4 = 1 := by rw [hcs]; norm_num
  have hcs5 : cellStarts infoTwo posTwo 5 = 1 := by rw [hcs]; norm_num
  have hcs7 : cellStarts infoTwo posTwo 7 = 1 := by rw [hcs]; norm_num
  have hcs8 : cellStarts infoTwo posTwo 8 = 1 := by rw [hcs]; norm_num
  have hcs9 : cellStarts infoTwo posTwo 9 = 2 := by rw [hcs]; norm_num
  have hcs11 : cellStarts infoTwo posTwo 11 = 2 := by rw [hcs]; norm_num
  have hcs14 : cellStarts infoTwo posTwo 14 = 2 := by rw [hcs]; norm_num
  have hwc : withinCutoff (posTwo.getD 0 ⟨0, 0, 0⟩) ⟨-1/20, -9/20, -9/20⟩ 1 := by
    rw [hg0]
    show distance2 _ _ < 1
    norm_num [distance2]
  refine ⟨?_, ?_, ?_⟩
  · rw [hg0, hg1]
    show distance2 _ _ < 1
    norm_num [distance2]
  · unfold posTwo
    refine List.pairwise_cons.mpr ⟨?_, by simp⟩
    intro q hq
    rw [List.mem_singleton] at hq
    subst hq
    rw [hid0, hid1]
    decide
  · have hrB1 : (selfRowPairs infoTwo posTwo 1 1 ⟨-1/20, -9/20, -9/20⟩
        ⟨0, 1, 1⟩ 0 0).countP (fun p => decide (p = (1, 0) ∨ p = (0, 1))) = 1 := by
      unfold selfRowPairs
      split_ifs with h1 h2 h3
      · exact absurd h2 (by decide)
      · exact absurd h3 (by decide)
      · rw [show (max (infoTwo.encode (⟨0, 1, 1⟩ : Int3).x 0 0 - 1) 0) = (0 : ℤ)
              from by decide,
          show (min (infoTwo.encode (⟨0, 1, 1⟩ : Int3).x 0 0 + 2) infoTwo.totcells)
              = (2 : ℤ) from by decide,
          hcs0, hcs2, computeCell_countP _ 0 1 _ 1 0 (by decide) posTwo 1,
          if_pos ⟨by decide, by decide, hwc, fun _ => by decide⟩]
      · exact (h1 (by decide)).elim
    have hrB2 : (selfRowPairs infoTwo posTwo 1 1 ⟨-1/20, -9/20, -9/20⟩
        ⟨0, 1, 1⟩ 1 0).countP (fun p => decide (p = (1, 0) ∨ p = (0, 1))) = 1 := by
      unfold selfRowPairs
      split_ifs with h1 h2 h3
      · exact absurd h2 (by decide)
      · exact absurd h3 (by decide)
      · rw [show (max (infoTwo.encode (⟨0, 1, 1⟩ : Int3).x 1 0 - 1) 0) = (1 : ℤ)
              from by decide,
          show (min (infoTwo.encode (⟨0, 1, 1⟩ : Int3).x 1 0 + 2) infoTwo.totcells)
              = (4 : ℤ) from by decide,
          hcs1, hcs4, computeCell_countP _ 0 1 _ 1 0 (by decide) posTwo 1,
          if_pos ⟨by decide, by decide, hwc, fun _ => by decide⟩]
      · exact (h1 (by decide)).elim
    have hrB3 : (selfRowPairs infoTwo posTwo 1 1 ⟨-1/20, -9/20, -9/20⟩
        ⟨0, 1, 1⟩ 0 1).countP (fun p => decide (p = (1, 0) ∨ p = (0, 1))) = 0 := by
      unfold selfRowPairs
      split_ifs with h1 h2 h3
      · rfl
      · exact absurd h3 (by decide)
      · rw [show (max (infoTwo.encode (⟨0, 1, 1⟩ : Int3).x 0 1 - 1) 0) = (5 : ℤ)
              from by decide,
          show (min (infoTwo.encode (⟨0, 1, 1⟩ : Int3).x 0 1 + 2) infoTwo.totcells)
              = (8 : ℤ) from by decide,
          hcs5, hcs8, computeCell_countP _ 1 1 _ 1 0 (by decide) posTwo 1,
          if_neg (fun h => absurd h.1 (by decide))]
      · exact (h1 (by decide)).elim
    have hrB4 : (selfRowPairs infoTwo posTwo 1 1 ⟨-1/20, -9/20, -9/20⟩
        ⟨0, 1, 1⟩ 1 1).countP (fun p => decide (p = (1, 0) ∨ p = (0, 1))) = 0 := by
      unfold selfRowPairs
      split_ifs with h1 h2 h3
      · rfl
      · rw [show (max (infoTwo.encode (⟨0, 1, 1⟩ : Int3).x 1 1 - 1) 0) = (7 : ℤ)
              from by decide,
          show (infoTwo.encode (⟨0, 1, 1⟩ : Int3).x 1 1 + 1) = (9 : ℤ) from by decide,
          hcs7, hcs9, computeCell_countP _ 1 2 _ 1 0 (by decide) posTwo 1,
          if_neg (fun h => absurd h.1 (by decide))]
      · exact (h3 (by decide)).elim
      · exact (h1 (by decide)).elim
    have hrB5 : (selfRowPairs infoTwo posTwo 1 1 ⟨-1/20, -9/20, -9/20⟩
        ⟨0, 1, 1⟩ 0 2).countP (fun p => decide (p = (1, 0) ∨ p = (0, 1))) = 0 := by
      unfold selfRowPairs
      split_ifs with h1 h2 h3
      · rfl
      · exact absurd h3 (by decide)
      · rw [show (max (infoTwo.encode (⟨0, 1, 1⟩ : Int3).x 0 2 - 1) 0) = (11 : ℤ)
              from by decide,
          show (min (infoTwo.encode (⟨0, 1, 1⟩ : Int3).x 0 2 + 2) infoTwo.totcells)
              = (14 : ℤ) from by decide,
          hcs11, hcs14, computeCell_countP _ 2 2 _ 1 0 (by decide) posTwo 1,
          if_neg (fun h => absurd h.1 (by decide))]
      · exact (h1 (by decide)).elim
    have hrB6 : (selfRowPairs infoTwo posTwo 1 1 ⟨-1/20, -9/20, -9/20⟩
        ⟨0, 1, 1⟩ 1 2).countP (fun p => decide (p = (1, 0) ∨ p = (0, 1))) = 0 := by
      unfold selfRowPairs
      split_ifs with h1 h2 h3
      · rfl
      · exact (h2 (by decide)).elim
      · exact (h2 (by decide)).elim
      · exact (h1 (by decide)).elim
    have hrA1 : (selfRowPairs infoTwo posTwo 1 0 ⟨1/20, -11/20, -11/20⟩
        ⟨1, 0, 0⟩ (-1) (-1)).countP (fun p => decide (p = (0, 1) ∨ p = (1, 0))) = 0 := by
      unfold selfRowPairs
      split_ifs with h1 h2 h3 <;> first | rfl | exact (absurd h1 (by decide))
    have hrA2 : (selfRowPairs infoTwo posTwo 1 0 ⟨1/20, -11/20, -11/20⟩
        ⟨1, 0, 0⟩ 0 (-1)).countP (fun p => decide (p = (0, 1) ∨ p = (1, 0))) = 0 := by
      unfold selfRowPairs
      split_ifs with h1 h2 h3 <;> first | rfl | exact (absurd h1 (by decide))
    have hrA3 : (selfRowPairs infoTwo posTwo 1 0 ⟨1/20, -11/20, -11/20⟩
        ⟨1, 0, 0⟩ (-1) 0).countP (fun p => decide (p = (0, 1) ∨ p = (1, 0))) = 0 := by
      unfold selfRowPairs
      split_ifs with h1 h2 h3 <;> first | rfl | exact (absurd h1 (by decide))
    have hrA4 : (selfRowPairs infoTwo posTwo 1 0 ⟨1/20, -11/20, -11/20⟩
        ⟨1, 0, 0⟩ 0 0).countP (fun p => decide (p = (0, 1) ∨ p = (1, 0))) = 0 := by
      unfold selfRowPairs
      split_ifs with h1 h2 h3
      · rfl
      · rw [show (max (infoTwo.encode (⟨1, 0, 0⟩ : Int3).x 0 0 - 1) 0) = (0 : ℤ)
              from by decide,
          show (infoTwo.encode (⟨1, 0, 0⟩ : Int3).x 0 0 + 1) = (2 : ℤ) from by decide,
          hcs0, hcs2, computeCell_countP _ 0 1 _ 0 1 (by decide) posTwo 1,
          if_neg (fun h => absurd h.2.1 (by decide))]
      · exact (h3 (by decide)).elim
      · exact (h1 (by decide)).elim
    have hrA5 : (selfRowPairs infoTwo posTwo 1 0 ⟨1/20, -11/20, -11/20⟩
        ⟨1, 0, 0⟩ (-1) 1).countP (fun p => decide (p = (0, 1) ∨ p = (1, 0))) = 0 := by
      unfold selfRowPairs
      split_ifs with h1 h2 h3 <;> first | rfl | exact (absurd h1 (by decide))
    have hrA6 : (selfRowPairs infoTwo posTwo 1 0 ⟨1/20, -11/20, -11/20⟩
        ⟨1, 0, 0⟩ 0 1).countP (fun p => decide (p = (0, 1) ∨ p = (1, 0))) = 0 := by
      unfold selfRowPairs
      split_ifs with h1 h2 h3
      · rfl
      · exact (h2 (by decide)).elim
      · exact (h2 (by decide)).elim
      · exact (h1 (by decide)).elim
    have ht1 : (selfThreadPairs infoTwo posTwo 1 false 1).countP
        (fun p => decide (p = (1, 0) ∨ p = (0, 1))) = 2 := by
      unfold selfThreadPairs
      rw [hg1, hc1]
      rw [show ((⟨0, 1, 1⟩ : Int3).y - 1) = (0 : ℤ) from rfl,
        show ((⟨0, 1, 1⟩ : Int3).z + 1) = (2 : ℤ) from rfl,
        show ((⟨0, 1, 1⟩ : Int3).y) = (1 : ℤ) from rfl]
      simp only [List.countP_append]
      rw [hrB1, hrB2, hrB3, hrB4, hrB5, hrB6]
      decide
    have hswap0 : (selfThreadPairs infoTwo posTwo 1 false 0).countP
          (fun p => decide (p = (1, 0) ∨ p = (0, 1)))
        = (selfThreadPairs infoTwo posTwo 1 false 0).countP
          (fun p => decide (p = (0, 1) ∨ p = (1, 0))) :=
      countP_ext _ _ _ (fun p => decide_eq_decide.mpr or_comm)
    have ht0 : (selfThreadPairs infoTwo posTwo 1 false 0).countP
        (fun p => decide (p = (0, 1) ∨ p = (1, 0))) = 0 := by
      unfold selfThreadPairs
      rw [hg0, hc0]
      rw [show ((⟨1, 0, 0⟩ : Int3).y - 1) = (-1 : ℤ) from rfl,
        show ((⟨1, 0, 0⟩ : Int3).z + 1) = (1 : ℤ) from rfl,
        show ((⟨1, 0, 0⟩ : Int3).y) = (0 : ℤ) from rfl]
      simp only [List.countP_append]
      rw [hrA1, hrA2, hrA3, hrA4, hrA5, hrA6]
      decide
    unfold pairCount computeSelfInteractions
    rw [countP_flatMap]
    rw [show posTwo.length = 2 from rfl, show List.range 2 = [0, 1] from rfl]
    simp only [List.map_cons, List.map_nil, List.sum_cons, List.sum_nil]
    rw [hswap0, ht0, ht1]
    rfl

/-- Witness: on the 3×3×3 unit grid, with the sorted in-domain pair in
cells 0 and 13 at distance² 3/100 < 1, the amended theorem applies and
the pair is processed exactly once. -/
theorem computeSelfInteractions_pair_exactly_once_witness :
    pairCount (computeSelfInteractions infoThree posThree 1 false) 0 1 = 1 := by
  have hfA : ⌊(1 : ℚ) * (-11/20 + 3 / 2)⌋ = 0 := by norm_num [Int.floor_eq_iff]
  have hfB : ⌊(1 : ℚ) * (-9/20 + 3 / 2)⌋ = 1 := by norm_num [Int.floor_eq_iff]
  have hcA : cellOf infoThree ⟨-11/20, -11/20, -11/20⟩ = ⟨0, 0, 0⟩ := by
    show (⟨min (3 - 1) (max 0 ⌊(1 : ℚ) * (-11/20 + 3 / 2)⌋),
           min (3 - 1) (max 0 ⌊(1 : ℚ) * (-11/20 + 3 / 2)⌋),
           min (3 - 1) (max 0 ⌊(1 : ℚ) * (-11/20 + 3 / 2)⌋)⟩ : Int3) = ⟨0, 0, 0⟩
    rw [hfA]
    decide
  have hcB : cellOf infoThree ⟨-9/20, -9/20, -9/20⟩ = ⟨1, 1, 1⟩ := by
    show (⟨min (3 - 1) (max 0 ⌊(1 : ℚ) * (-9/20 + 3 / 2)⌋),
           min (3 - 1) (max 0 ⌊(1 : ℚ) * (-9/20 + 3 / 2)⌋),
           min (3 - 1) (max 0 ⌊(1 : ℚ) * (-9/20 + 3 / 2)⌋)⟩ : Int3) = ⟨1, 1, 1⟩
    rw [hfB]
    decide
  have hidA : cellIdOf infoThree ⟨-11/20, -11/20, -11/20⟩ = 0 := by
    unfold cellIdOf
    rw [hcA]
    decide
  have hidB : cellIdOf infoThree ⟨-9/20, -9/20, -9/20⟩ = 13 := by
    unfold cellIdOf
    rw [hcB]
    decide
  refine computeSelfInteractions_pair_exactly_once infoThree posThree 1 1 false
    (by decide) (by decide) (by decide)
    (by norm_num [infoThree]) (by norm_num [infoThree]) (by norm_num [infoThree])
    (by norm_num [infoThree]) (by norm_num [infoThree]) (by norm_num [infoThree])
    (by norm_num [infoThree]) (by norm_num [infoThree]) (by norm_num [infoThree])
    (by decide)
    (by norm_num) (by norm_num [infoThree]) (by norm_num [infoThree])
    (by norm_num [infoThree]) (by norm_num)
    ?_ ?_ 0 1 (by decide) (by decide) (by decide) ?_
  · intro p hp
    have hp2 : p = (⟨-11/20, -11/20, -11/20⟩ : Q3)
        ∨ p = (⟨-9/20, -9/20, -9/20⟩ : Q3) := by
      simpa [posThree] using hp
    rcases hp2 with rfl | rfl <;>
      exact ⟨⟨by norm_num [infoThree], by norm_num [infoThree]⟩,
        ⟨by norm_num [infoThree], by norm_num [infoThree]⟩,
        ⟨by norm_num [infoThree], by norm_num [infoThree]⟩⟩
  · unfold posThree
    refine List.pairwise_cons.mpr ⟨?_, by simp⟩
    intro q hq
    rw [List.mem_singleton] at hq
    subst hq
    rw [hidA, hidB]
    decide
  · rw [show posThree.getD 0 ⟨0, 0, 0⟩ = (⟨-11/20, -11/20, -11/20⟩ : Q3) from rfl,
      show posThree.getD 1 ⟨0, 0, 0⟩ = (⟨-9/20, -9/20, -9/20⟩ : Q3) from rfl]
    norm_num [distance2]
